import Mathlib

/-!
Verification of the multi-source margin-data reconciliation and derived-metrics
pipeline of the tradeTools repository.

The Python source operates on pandas DataFrames over IEEE floats.  The shallow
embedding below models
* a table cell as `Option ℚ`: `some q` is a finite numeric value, `none` stands
  for every non-finite pandas value (NaN as well as the ±inf produced by
  division by zero), since downstream code treats all of them as "undefined";
* a raw (pre-coercion) cell as `RawCell`: either a numeric value or a
  non-numeric payload (`RawCell.text`), mirroring what
  `pd.to_numeric(..., errors="coerce")` distinguishes;
* machine reals as exact rationals `ℚ`; `round(n)` is modelled by exact
  rounding of `x·10ⁿ` to the nearest integer;
* the sample standard deviation (which needs a real square root and therefore
  leaves `ℚ`) through an explicit function parameter `sqrtFn`; every theorem
  below is proved for all values of that parameter.

Pure in-memory transformations never raise in the source (all entry points
wrap their bodies in try/except that cannot fire on the modelled arithmetic),
so the embedding is total.
-/

/-! ## Cells and elementary cell arithmetic -/

/-- A pandas cell after numeric coercion: a finite rational or an undefined
value (NaN / ±inf). -/
abbrev Cell := Option ℚ

/-- Addition on cells; any undefined operand makes the result undefined. -/
def cellAdd : Cell → Cell → Cell
  | some a, some b => some (a + b)
  | _, _ => none

/-- Subtraction on cells. -/
def cellSub : Cell → Cell → Cell
  | some a, some b => some (a - b)
  | _, _ => none

/-- Division on cells.  A zero denominator yields ±inf or NaN in IEEE floats;
both are modelled as the undefined cell. -/
def cellDiv : Cell → Cell → Cell
  | some a, some b => if b = 0 then none else some (a / b)
  | _, _ => none

/-- Multiply a cell by a constant. -/
def cellMulC (c : ℚ) : Cell → Cell := Option.map (· * c)

/-- `Series.round(2)`: round to two decimal places. -/
def round2 (x : ℚ) : ℚ := ((round (x * 100) : ℤ) : ℚ) / 100

/-- `Series.round(4)`: round to four decimal places. -/
def round4 (x : ℚ) : ℚ := ((round (x * 10000) : ℤ) : ℚ) / 10000

/-- Rounding lifted to cells (NaN stays NaN). -/
def cellRound2 : Cell → Cell := Option.map round2

/-- Rounding to 4 decimals lifted to cells. -/
def cellRound4 : Cell → Cell := Option.map round4

/-- A scalar comparison `cell > q` as pandas evaluates it: comparisons with
NaN are false. -/
def cellGt (c : Cell) (q : ℚ) : Bool :=
  match c with
  | some v => decide (q < v)
  | none => false

/-- A raw table cell before numeric coercion: either a numeric value or a
non-numeric payload that `pd.to_numeric(..., errors="coerce")` cannot parse. -/
inductive RawCell where
  | num (q : ℚ)
  | text (s : String)
deriving DecidableEq

/-- `pd.to_numeric(x, errors="coerce")` on one cell: numeric values survive,
everything else becomes missing (NaN) — not zero. -/
def to_numeric_cell : RawCell → Cell
  | .num q => some q
  | .text _ => none

/-- The body of the per-column coercion loop in
`MarginDataFetcher._standardize_columns_akshare` (fetcher.py lines 236-238):
`df[col] = pd.to_numeric(df[col], errors="coerce")`. -/
def to_numeric_column (col : List RawCell) : List Cell :=
  col.map to_numeric_cell

/-! ## `MarginDataFetcher._merge_sh_sz_margin_data` (src/margin/fetcher.py)

One row of a raw per-exchange margin table.  Field names follow the standard
abbreviations the repository itself uses for the same quantities
(`_merge_tushare_exchanges`):
`rzmre` = 融资买入额 (financing buy amount), `rzye` = 融资余额 (financing
balance), `rqmcl` = 融券卖出量 (short-sell volume), `rqyl` = 融券余量 (short
volume remaining), `rqye` = 融券余额 (short balance), `rzrqye` = 融资融券余额
(combined balance).  Dates are `YYYYMMDD` numbers: the source's
datetime round-trip preserves ordering and equality, so it is the identity
here. -/
structure MarginRow where
  date : ℕ
  rzmre : RawCell
  rzye : RawCell
  rqmcl : RawCell
  rqyl : RawCell
  rqye : RawCell
  rzrqye : RawCell
deriving DecidableEq

/-- A merged (market-wide) row.  All six numeric fields are plain rationals:
the source runs every summand through
`pd.to_numeric(..., errors="coerce").fillna(0)`, so merged fields are always
defined numbers. -/
structure MergedRow where
  date : ℕ
  rzmre : ℚ
  rzye : ℚ
  rqmcl : ℚ
  rqyl : ℚ
  rqye : ℚ
  rzrqye : ℚ
deriving DecidableEq

/-- `pd.to_numeric(merged[col], errors="coerce").fillna(0)` applied to both
sides, then summed (fetcher.py lines 330-332). -/
def fillna0_sum (x y : RawCell) : ℚ :=
  (to_numeric_cell x).getD 0 + (to_numeric_cell y).getD 0

/-- Combine one Shanghai row and one Shenzhen row with the same date into the
market-wide row (the per-column loop at fetcher.py lines 324-332). -/
def merge_rows (a b : MarginRow) : MergedRow where
  date := a.date
  rzmre := fillna0_sum a.rzmre b.rzmre
  rzye := fillna0_sum a.rzye b.rzye
  rqmcl := fillna0_sum a.rqmcl b.rqmcl
  rqyl := fillna0_sum a.rqyl b.rqyl
  rqye := fillna0_sum a.rqye b.rqye
  rzrqye := fillna0_sum a.rzrqye b.rzrqye

/-- The date-range filter (fetcher.py lines 296-297). -/
def filter_date_range (s e : ℕ) (rows : List MarginRow) : List MarginRow :=
  rows.filter (fun r => decide (s ≤ r.date) && decide (r.date ≤ e))

/-- `df.tail(20)`: the most recent 20 rows (fetcher.py lines 303-304). -/
def tail20 (rows : List MarginRow) : List MarginRow :=
  rows.drop (rows.length - 20)

/-- `pd.merge(sh_filtered, sz_filtered, on="日期")` (an inner join, left order
preserved) followed by the summing loop: every pair of rows sharing a date
produces one merged row. -/
def co_merge_rows (sh sz : List MarginRow) : List MergedRow :=
  sh.flatMap (fun a => ((sz.filter (fun b => b.date == a.date)).map (merge_rows a)))

/-- `MarginDataFetcher._merge_sh_sz_margin_data` (fetcher.py lines 273-348).
Empty inputs short-circuit to an empty table; if either date-filtered slice is
empty both sides fall back to their most recent 20 rows; the sides are then
inner-joined on date and summed field-wise.  (The source's final
`if merged.empty: return pd.DataFrame()` is the identity on the list model.) -/
def merge_sh_sz_margin_data (sh sz : List MarginRow) (s e : ℕ) : List MergedRow :=
  if sh.isEmpty || sz.isEmpty then []
  else
    let shF := filter_date_range s e sh
    let szF := filter_date_range s e sz
    if shF.isEmpty || szF.isEmpty then
      let shT := tail20 sh
      let szT := tail20 sz
      if shT.isEmpty || szT.isEmpty then []
      else co_merge_rows shT szT
    else co_merge_rows shF szF

/-! ## `SectorFetcher._aggregate_sector_data` (src/sector/fetcher.py) -/

/-- One constituent (stock) observation as built by
`_get_index_stocks_realtime_data` (fetcher.py lines 436-478). -/
structure StockRecord where
  code : String          -- 股票代码
  name : String          -- 股票名称
  weight : ℚ             -- 权重
  price : ℚ              -- 最新价
  pctChange : ℚ          -- 涨跌幅
  mainInflow : ℚ         -- 主力净流入 (万元)
  turnoverRate : ℚ       -- 换手率
  volume : ℚ             -- 成交量
  amount : ℚ             -- 成交额
deriving DecidableEq

/-- The weighted sector aggregate row built at fetcher.py lines 519-530.
The display name resolved through `get_index_stock_info` is a configuration
lookup outside the aggregation logic and is not modelled. -/
structure SectorRecord where
  indexCode : String
  pctChange : ℚ          -- 涨跌幅: weighted mean percent change
  mainFund : ℚ           -- 主力资金: Σ(inflow×weight) / 10000 (亿元)
  turnoverRate : ℚ       -- 换手率: weighted mean turnover
  risingStocks : ℕ       -- 上涨股票数
  totalStocks : ℕ        -- 总股票数
  risingRatio : ℚ        -- 上涨比例 (percent)
  constituents : List StockRecord   -- 成分股数据
deriving DecidableEq

/-- `SectorFetcher._aggregate_sector_data` (fetcher.py lines 486-536).
`none` models the empty DataFrame returned for an empty constituent table or a
zero total weight. -/
def aggregate_sector_data (stocks : List StockRecord) (indexCode : String) :
    Option SectorRecord :=
  if stocks.isEmpty then none
  else
    let total_weight := (stocks.map (fun s => s.weight)).sum
    if total_weight = 0 then none
    else
      let rising := (stocks.filter (fun s => decide (0 < s.pctChange))).length
      let total := stocks.length
      some
        { indexCode := indexCode
          pctChange := (stocks.map (fun s => s.pctChange * s.weight)).sum / total_weight
          mainFund := (stocks.map (fun s => s.mainInflow * s.weight)).sum / 10000
          turnoverRate := (stocks.map (fun s => s.turnoverRate * s.weight)).sum / total_weight
          risingStocks := rising
          totalStocks := total
          risingRatio := (if 0 < total then (rising : ℚ) / (total : ℚ) else 0) * 100
          constituents := stocks }

/-! ## DataFrame model for the processor (src/margin/processor.py)

A frame is an ordered association list of named columns.  pandas keeps column
labels unique, which the operations below preserve. -/

abbrev Frame := List (String × List Cell)

/-- Number of rows (`len(df)`), read off the first column. -/
def numRows (f : Frame) : ℕ :=
  match f with
  | [] => 0
  | c :: _ => c.2.length

/-- `df.empty`: no rows (a frame without columns has no rows either). -/
def frameEmpty (f : Frame) : Bool :=
  numRows f == 0

/-- `df[c]` when the column exists. -/
def getCol (f : Frame) (c : String) : Option (List Cell) :=
  (f.find? (fun p => p.1 == c)).map Prod.snd

/-- `c in df.columns`. -/
def hasCol (f : Frame) (c : String) : Bool :=
  (getCol f c).isSome

/-- `df[c]` in a context where the source has already checked the column
exists (the default is never reached on those paths). -/
def colOf (f : Frame) (c : String) : List Cell :=
  (getCol f c).getD []

/-- `df[c] = col`: overwrite an existing column in place, else append it. -/
def setCol (f : Frame) (c : String) (col : List Cell) : Frame :=
  if hasCol f c then f.map (fun p => if p.1 == c then (c, col) else p)
  else f ++ [(c, col)]

/-- Indexed cell access with NaN for an out-of-range index. -/
def cellAtIdx (xs : List Cell) (i : ℕ) : Cell :=
  (xs[i]?).getD none

/-- The defined (non-NaN) values of a column, in order. -/
def presentVals (xs : List Cell) : List ℚ :=
  xs.filterMap id

/-- `Series.sum()`: pandas skips NaN and sums an all-NaN column to 0. -/
def sumPresent (xs : List Cell) : ℚ :=
  (presentVals xs).sum

/-- `Series.mean()`: mean over the defined values, NaN when there are none. -/
def meanPresent (xs : List Cell) : Cell :=
  let vs := presentVals xs
  if vs.length = 0 then none else some (vs.sum / (vs.length : ℚ))

/-- Least defined value of a column (`Series.min()`), NaN when all-NaN. -/
def minPresent (xs : List Cell) : Cell :=
  (presentVals xs).foldl (fun acc v =>
    match acc with
    | none => some v
    | some m => some (min m v)) none

/-- Greatest defined value of a column (`Series.max()`). -/
def maxPresent (xs : List Cell) : Cell :=
  (presentVals xs).foldl (fun acc v =>
    match acc with
    | none => some v
    | some m => some (max m v)) none

/-- `Series.diff()`: element-wise difference with the previous row; the first
row (and any row adjacent to NaN) is NaN. -/
def diffCells (xs : List Cell) : List Cell :=
  (List.range xs.length).map (fun i =>
    if i = 0 then none else cellSub (cellAtIdx xs i) (cellAtIdx xs (i - 1)))

/-- Forward fill, as `Series.pct_change`'s default `fill_method="pad"`
performs before differencing. -/
def ffill_from (last : Cell) : List Cell → List Cell
  | [] => []
  | x :: xs =>
    match x with
    | some v => some v :: ffill_from (some v) xs
    | none => last :: ffill_from last xs

/-- `Series.ffill()`. -/
def ffill (xs : List Cell) : List Cell := ffill_from none xs

/-- `Series.pct_change(periods=n)`: forward-fill, then
`filled[i] / filled[i-n] - 1`; the first `n` rows are NaN, division by a zero
previous value yields a non-finite float, modelled as NaN. -/
def pct_change_cells (n : ℕ) (xs : List Cell) : List Cell :=
  let fl := ffill xs
  (List.range xs.length).map (fun i =>
    if i < n then none
    else
      match cellAtIdx fl (i - n), cellAtIdx fl i with
      | some p, some c => if p = 0 then none else some (c / p - 1)
      | _, _ => none)

/-- `(series.pct_change(periods=n) * 100).round(2)`, the change-rate column
shape used throughout `_calculate_change_rates`. -/
def pct_rate_col (n : ℕ) (xs : List Cell) : List Cell :=
  (pct_change_cells n xs).map (fun c => cellRound2 (cellMulC 100 c))

/-- The rolling window ending at row `i` with size at most `n`. -/
def windowAt (n : ℕ) (xs : List Cell) (i : ℕ) : List Cell :=
  (xs.take (i + 1)).drop (i + 1 - n)

/-- `Series.rolling(window=n, min_periods=1).mean()`: the mean of the defined
values in the trailing window, NaN when the window holds none. -/
def rollingMeanCells (n : ℕ) (xs : List Cell) : List Cell :=
  (List.range xs.length).map (fun i => meanPresent (windowAt n xs i))

/-- `Series.rolling(window=n, min_periods=1).std()`: the sample standard
deviation (ddof=1) of the defined values in the trailing window; NaN with
fewer than two of them.  `sqrtFn` stands for the real square root, which has
no exact rational counterpart. -/
def rollingStdCells (sqrtFn : ℚ → ℚ) (n : ℕ) (xs : List Cell) : List Cell :=
  (List.range xs.length).map (fun i =>
    let vs := presentVals (windowAt n xs i)
    if vs.length ≤ 1 then none
    else
      let m := vs.sum / (vs.length : ℚ)
      some (sqrtFn ((vs.map (fun v => (v - m) ^ 2)).sum / ((vs.length : ℚ) - 1))))

/-- Sample standard deviation of a whole column (`Series.std()`, ddof=1,
skipping NaN). -/
def stdPresent (sqrtFn : ℚ → ℚ) (xs : List Cell) : Cell :=
  let vs := presentVals xs
  if vs.length ≤ 1 then none
  else
    let m := vs.sum / (vs.length : ℚ)
    some (sqrtFn ((vs.map (fun v => (v - m) ^ 2)).sum / ((vs.length : ℚ) - 1)))

/-- Element-wise combination of two equal-length columns. -/
def zipCells (op : Cell → Cell → Cell) (xs ys : List Cell) : List Cell :=
  List.zipWith op xs ys

/-- `(num / den * 100).round(2)`, the structural-ratio column shape
(processor.py lines 85 and 88). -/
def ratio_col (num den : List Cell) : List Cell :=
  (zipCells cellDiv num den).map (fun c => cellRound2 (cellMulC 100 c))

/-! ## `MarginDataProcessor` stages -/

/-- Combined-balance / net-financing block of `_calculate_basic_metrics`
(processor.py lines 74-80): create 两融余额 only when absent, then add
净融资额 = 融资余额 − 融券余额. -/
def basic_combined_net (f : Frame) : Frame :=
  if hasCol f "融资余额" && hasCol f "融券余额" then
    let fa :=
      if !hasCol f "两融余额" then
        setCol f "两融余额" (zipCells cellAdd (colOf f "融资余额") (colOf f "融券余额"))
      else f
    setCol fa "净融资额" (zipCells cellSub (colOf fa "融资余额") (colOf fa "融券余额"))
  else f

/-- Structural-ratio block (processor.py lines 82-88), guarded by the
column-wide sum of 两融余额 being positive. -/
def basic_structural_ratios (f : Frame) : Frame :=
  if hasCol f "两融余额" && decide (0 < sumPresent (colOf f "两融余额")) then
    let fb :=
      if hasCol f "融资余额" then
        setCol f "融资占两融比例" (ratio_col (colOf f "融资余额") (colOf f "两融余额"))
      else f
    if hasCol f "融券余额" then
      setCol fb "融券占两融比例" (ratio_col (colOf f "融券余额") (colOf f "两融余额"))
    else fb
  else f

/-- Simulated maintenance-guarantee-ratio block (processor.py lines 90-106):
base 180, adjusted by half the daily percent change of 两融余额, clamped to
[150, 250]. -/
def basic_guarantee_ratio (f : Frame) : Frame :=
  if hasCol f "两融余额" then
    if 1 < numRows f then
      setCol f "市场整体维持担保比例"
        ((pct_change_cells 1 (colOf f "两融余额")).map
          (Option.map (fun v => round2 (min 250 (max 150 (180 + v * 100 * (1 / 2)))))))
    else
      setCol f "市场整体维持担保比例" (List.replicate (numRows f) (some 180))
  else f

/-- Financing-turnover block (processor.py lines 109-111). -/
def basic_turnover (f : Frame) : Frame :=
  if hasCol f "融资买入额" && hasCol f "融资余额" then
    setCol f "融资周转率"
      ((zipCells cellDiv (colOf f "融资买入额") (colOf f "融资余额")).map
        (fun c => cellRound4 (cellMulC 100 c)))
  else f

/-- `MarginDataProcessor._calculate_basic_metrics` (processor.py
lines 69-113), as the composition of its four blocks. -/
def calculate_basic_metrics (f : Frame) : Frame :=
  basic_turnover (basic_guarantee_ratio (basic_structural_ratios (basic_combined_net f)))

/-- The tracked fields of `_calculate_change_rates` (processor.py line 120). -/
def change_columns : List String := ["融资余额", "融券余额", "两融余额", "融资买入额"]

/-- One iteration of the `_calculate_change_rates` loop (lines 122-134). -/
def add_change_cols (f : Frame) (c : String) : Frame :=
  if hasCol f c then
    let xs := colOf f c
    let g1 := setCol f (c ++ "_日变化") (diffCells xs)
    let g2 := setCol g1 (c ++ "_日变化率") (pct_rate_col 1 xs)
    let g3 := setCol g2 (c ++ "_周变化率") (pct_rate_col 5 xs)
    setCol g3 (c ++ "_月变化率") (pct_rate_col 20 xs)
  else f

/-- `MarginDataProcessor._calculate_change_rates` (processor.py lines 115-136). -/
def calculate_change_rates (f : Frame) : Frame :=
  change_columns.foldl add_change_cols f

/-- The moving-average bases (processor.py line 143). -/
def ma_columns : List String := ["融资余额", "融券余额", "两融余额"]

/-- The moving-average windows (processor.py line 146). -/
def ma_periods : List ℕ := [5, 10, 20, 60]

/-- One iteration of the outer `_calculate_moving_averages` loop
(lines 148-156). -/
def add_ma_cols (f : Frame) (c : String) : Frame :=
  if hasCol f c then
    ma_periods.foldl (fun g p =>
      let xs := colOf g c
      let ma := (rollingMeanCells p xs).map cellRound2
      let g1 := setCol g (c ++ "_MA" ++ toString p) ma
      setCol g1 (c ++ "_MA" ++ toString p ++ "_偏离度")
        ((zipCells cellDiv xs ma).map
          (fun cc => cellRound2 (cellMulC 100 (Option.map (fun v => v - 1) cc))))) f
  else f

/-- `MarginDataProcessor._calculate_moving_averages` (processor.py
lines 138-158). -/
def calculate_moving_averages (f : Frame) : Frame :=
  ma_columns.foldl add_ma_cols f

/-- `delta.where(delta > 0, 0)` over the diffed series: gains are plain
rationals (a NaN difference fails the comparison and becomes 0). -/
def gains (xs : List Cell) : List ℚ :=
  (diffCells xs).map (fun d =>
    match d with
    | some v => if 0 < v then v else 0
    | none => 0)

/-- `-delta.where(delta < 0, 0)`: losses as nonnegative rationals. -/
def losses (xs : List Cell) : List ℚ :=
  (diffCells xs).map (fun d =>
    match d with
    | some v => if v < 0 then -v else 0
    | none => 0)

/-- Rolling mean with `min_periods=1` over an all-defined series. -/
def rollingMeanQ (n : ℕ) (xs : List ℚ) : List ℚ :=
  (List.range xs.length).map (fun i =>
    let w := (xs.take (i + 1)).drop (i + 1 - n)
    w.sum / (w.length : ℚ))

/-- `avg_gain` of `_calculate_rsi` (processor.py line 224), window 14. -/
def avg_gain (xs : List Cell) : List ℚ := rollingMeanQ 14 (gains xs)

/-- `avg_loss` of `_calculate_rsi` (processor.py line 225). -/
def avg_loss (xs : List Cell) : List ℚ := rollingMeanQ 14 (losses xs)

/-- `rs = avg_gain / avg_loss; rsi = 100 - 100 / (1 + rs)` pointwise, under
IEEE float semantics: a positive gain over a zero loss gives `rs = +inf` and
hence `rsi = 100`; zero over zero gives NaN.  (`l < 0` cannot arise: losses
are nonnegative, so their rolling mean is too.) -/
def rsi_point (g l : ℚ) : Cell :=
  if 0 < l then some (100 - 100 / (1 + g / l))
  else if 0 < g then some 100
  else none

/-- `MarginDataProcessor._calculate_rsi` (processor.py lines 217-233); the
final `.round(2)` leaves NaN in place. -/
def calculate_rsi (xs : List Cell) : List Cell :=
  (List.zipWith rsi_point (avg_gain xs) (avg_loss xs)).map cellRound2

/-- `MarginDataProcessor._calculate_bollinger_bands` (processor.py
lines 235-249): returns (upper, middle, lower), each rounded to 2 decimals. -/
def calculate_bollinger_bands (sqrtFn : ℚ → ℚ) (xs : List Cell) :
    List Cell × List Cell × List Cell :=
  let middle := rollingMeanCells 20 xs
  let std := rollingStdCells sqrtFn 20 xs
  let upper := zipCells cellAdd middle (std.map (cellMulC 2))
  let lower := zipCells cellSub middle (std.map (cellMulC 2))
  (upper.map cellRound2, middle.map cellRound2, lower.map cellRound2)

/-- The RSI bases (processor.py line 195). -/
def rsi_columns : List String := ["融资余额", "两融余额"]

/-- The Bollinger bases (processor.py line 203). -/
def bollinger_columns : List String := ["融资余额", "两融余额"]

/-- One iteration of the RSI loop in `_calculate_statistical_metrics`
(lines 197-200). -/
def add_rsi_col (f : Frame) (c : String) : Frame :=
  if hasCol f c then setCol f (c ++ "_RSI") (calculate_rsi (colOf f c)) else f

/-- One iteration of the Bollinger loop (lines 205-213). -/
def add_bollinger_cols (sqrtFn : ℚ → ℚ) (f : Frame) (c : String) : Frame :=
  if hasCol f c then
    let bands := calculate_bollinger_bands sqrtFn (colOf f c)
    let g1 := setCol f (c ++ "_布林上轨") bands.1
    let g2 := setCol g1 (c ++ "_布林中轨") bands.2.1
    let g3 := setCol g2 (c ++ "_布林下轨") bands.2.2
    setCol g3 (c ++ "_布林位置")
      ((zipCells cellDiv (zipCells cellSub (colOf f c) bands.2.2)
          (zipCells cellSub bands.1 bands.2.2)).map
        (fun cc => cellRound2 (cellMulC 100 cc)))
  else f

/-- `MarginDataProcessor._calculate_statistical_metrics` (processor.py
lines 190-215). -/
def calculate_statistical_metrics (sqrtFn : ℚ → ℚ) (f : Frame) : Frame :=
  bollinger_columns.foldl (add_bollinger_cols sqrtFn) (rsi_columns.foldl add_rsi_col f)

/-- Ordering used to sort rows by their date cell (`NaT` sorts last). -/
def cellLe : Cell → Cell → Bool
  | none, none => true
  | some _, none => true
  | none, some _ => false
  | some a, some b => decide (a ≤ b)

/-- `result.sort_values("交易日期")` when the date column exists: a
permutation of the row indices ordered by date, applied to every column.
(`pd.to_datetime` on the `YYYYMMDD` numbers preserves order and equality, so
it is the identity here.) -/
def sort_by_date (f : Frame) : Frame :=
  match getCol f "交易日期" with
  | none => f
  | some dates =>
    let n := numRows f
    let perm := (List.range n).insertionSort
      (fun i j => cellLe (cellAtIdx dates i) (cellAtIdx dates j) = true)
    f.map (fun p => (p.1, perm.map (fun i => cellAtIdx p.2 i)))

/-- `MarginDataProcessor.process_margin_summary` (processor.py lines 26-67)
with the default `market_data=None`, so `_calculate_market_ratios` is
skipped. -/
def process_margin_summary (sqrtFn : ℚ → ℚ) (f : Frame) : Frame :=
  if frameEmpty f then []
  else
    calculate_statistical_metrics sqrtFn
      (calculate_moving_averages
        (calculate_change_rates
          (calculate_basic_metrics (sort_by_date f))))

/-! ## `MarginDataProcessor.analyze_margin_trends` (processor.py lines 251-340)

The analysis dict is modelled structurally; the display-side string templating
(`format_number`, f-strings) is rendering and out of scope, so each section
carries the underlying numeric values and classification labels. -/

/-- 数据概况 section (lines 264-268). -/
structure DataOverview where
  startDate : Cell
  endDate : Cell
  days : ℕ
deriving DecidableEq

/-- 两融余额分析 section (lines 271-283). -/
structure BalanceStats where
  latest : Cell
  minBalance : Cell
  maxBalance : Cell
  avgBalance : Cell
  volatility : Cell      -- std/avg×100 when avg > 0, else undefined
deriving DecidableEq

/-- 融资融券结构 section (lines 286-296). -/
structure StructureStats where
  financingRatio : Cell
  shortRatio : Cell
  rzye : Cell
  rqye : Cell
deriving DecidableEq

/-- 趋势分析 section (lines 299-316). -/
structure TrendStats where
  recentChange : Cell
  trendLabel : String
deriving DecidableEq

/-- 风险评估 section (lines 319-334). -/
structure RiskStats where
  latestRsi : Cell
  riskLabel : String
deriving DecidableEq

/-- The full analysis dict; absent sections are `none`, mirroring keys that
are only inserted when their source columns exist. -/
structure MarginTrendAnalysis where
  overview : DataOverview
  balanceStats : Option BalanceStats
  structureStats : Option StructureStats
  trendStats : Option TrendStats
  riskStats : Option RiskStats
deriving DecidableEq

/-- `series.iloc[-1]`. -/
def lastCell (xs : List Cell) : Cell :=
  (xs.getLast?).getD none

/-- `series.tail(n)`. -/
def lastN (n : ℕ) (xs : List Cell) : List Cell :=
  xs.drop (xs.length - n)

/-- Trend classification from the 5-day mean change rate (lines 302-311);
comparisons against NaN are false, so an undefined mean lands in the final
branch, as in the source. -/
def trend_label (recent : Cell) : String :=
  if cellGt recent 1 then "快速上升"
  else if cellGt recent (1 / 10) then "温和上升"
  else if cellGt recent (-(1 / 10)) then "基本平稳"
  else if cellGt recent (-1) then "温和下降"
  else "快速下降"

/-- Risk tier from the latest RSI (lines 322-329). -/
def risk_label (rsi : Cell) : String :=
  if cellGt rsi 70 then "高风险（超买）"
  else if cellGt rsi 50 then "中等风险"
  else if cellGt rsi 30 then "低风险"
  else "超卖"

/-- `MarginDataProcessor.analyze_margin_trends` (processor.py lines 251-340):
`none` models the empty dict returned for an empty input frame. -/
def analyze_margin_trends (sqrtFn : ℚ → ℚ) (f : Frame) : Option MarginTrendAnalysis :=
  if frameEmpty f then none
  else
    let overview : DataOverview :=
      { startDate := if hasCol f "交易日期" then minPresent (colOf f "交易日期") else none
        endDate := if hasCol f "交易日期" then maxPresent (colOf f "交易日期") else none
        days := numRows f }
    let balanceStats :=
      if hasCol f "两融余额" then
        let xs := colOf f "两融余额"
        let avg := meanPresent xs
        some
          { latest := if 0 < numRows f then lastCell xs else some 0
            minBalance := minPresent xs
            maxBalance := maxPresent xs
            avgBalance := avg
            volatility :=
              if cellGt avg 0 then cellMulC 100 (cellDiv (stdPresent sqrtFn xs) avg)
              else none }
      else none
    let structureStats :=
      if hasCol f "融资余额" && hasCol f "融券余额" && hasCol f "两融余额" then
        let rzL := lastCell (colOf f "融资余额")
        let rqL := lastCell (colOf f "融券余额")
        let ryL := lastCell (colOf f "两融余额")
        some
          { financingRatio := if cellGt ryL 0 then cellMulC 100 (cellDiv rzL ryL) else some 0
            shortRatio := if cellGt ryL 0 then cellMulC 100 (cellDiv rqL ryL) else some 0
            rzye := rzL
            rqye := rqL }
      else none
    let trendStats :=
      if hasCol f "两融余额_日变化率" then
        let recent := meanPresent (lastN 5 (colOf f "两融余额_日变化率"))
        some { recentChange := recent, trendLabel := trend_label recent }
      else none
    let riskStats :=
      if hasCol f "两融余额_RSI" then
        let latest := if 0 < numRows f then lastCell (colOf f "两融余额_RSI") else some 50
        some { latestRsi := latest, riskLabel := risk_label latest }
      else none
    some
      { overview := overview
        balanceStats := balanceStats
        structureStats := structureStats
        trendStats := trendStats
        riskStats := riskStats }

/-! ## `SectorProcessor.process_sector_data` (src/sector/processor.py) -/

/-- One sector row of the input table (columns 板块 / 主力资金 / 涨跌幅 /
换手率). -/
structure SectorRow where
  name : String          -- 板块
  mainFund : ℚ           -- 主力资金 (亿元)
  pctChange : ℚ          -- 涨跌幅
  turnoverRate : ℚ       -- 换手率
deriving DecidableEq

/-- `df.nlargest(n, key)`: stable descending selection (ties keep first
appearance, pandas `keep="first"`). -/
def nlargestBy (key : SectorRow → ℚ) (n : ℕ) (rows : List SectorRow) : List SectorRow :=
  (rows.insertionSort (fun a b => key b ≤ key a)).take n

/-- `df.nsmallest(n, key)`. -/
def nsmallestBy (key : SectorRow → ℚ) (n : ℕ) (rows : List SectorRow) : List SectorRow :=
  (rows.insertionSort (fun a b => key a ≤ key b)).take n

/-- `SectorProcessor._calculate_market_sentiment` (sector/processor.py
lines 504-549), numeric core. -/
structure MarketSentiment where
  sentiment : String     -- 市场情绪
  sentimentScore : ℕ     -- 情绪评分
  risingRatio : ℚ
  inflowRatio : ℚ
  avgChange : ℚ
  flowRatio : Cell       -- total_inflow/total_outflow; +inf is modelled as none
deriving DecidableEq

/-- Sentiment classification thresholds (lines 531-545). -/
def sentiment_class (risingRatio inflowRatio : ℚ) : String × ℕ :=
  if 7 / 10 ≤ risingRatio ∧ 6 / 10 ≤ inflowRatio then ("极度乐观", 90)
  else if 6 / 10 ≤ risingRatio ∧ 5 / 10 ≤ inflowRatio then ("乐观", 75)
  else if 4 / 10 ≤ risingRatio ∧ 4 / 10 ≤ inflowRatio then ("中性", 50)
  else if 3 / 10 ≤ risingRatio ∧ 3 / 10 ≤ inflowRatio then ("悲观", 25)
  else ("极度悲观", 10)

/-- `_calculate_market_sentiment` on a non-empty table. -/
def calculate_market_sentiment (rows : List SectorRow) : MarketSentiment :=
  let total := rows.length
  let risingRatio := ((rows.filter (fun r => decide (0 < r.pctChange))).length : ℚ) / (total : ℚ)
  let inflowRatio := ((rows.filter (fun r => decide (0 < r.mainFund))).length : ℚ) / (total : ℚ)
  let avgChange := (rows.map (fun r => r.pctChange)).sum / (total : ℚ)
  let totalInflow := ((rows.filter (fun r => decide (0 < r.mainFund))).map (fun r => r.mainFund)).sum
  let totalOutflow := |((rows.filter (fun r => decide (r.mainFund < 0))).map (fun r => r.mainFund)).sum|
  let cls := sentiment_class risingRatio inflowRatio
  { sentiment := cls.1
    sentimentScore := cls.2
    risingRatio := risingRatio
    inflowRatio := inflowRatio
    avgChange := avgChange
    flowRatio :=
      if 0 < totalOutflow then some (totalInflow / totalOutflow)
      else if 0 < totalInflow then none  -- float("inf")
      else some 0 }

/-- The result dict of `process_sector_data` on a non-empty table
(lines 26-99).  Formatted display strings are carried as their underlying
numbers. -/
structure SectorStats where
  totalSectors : ℕ       -- 总板块数
  inflowSectors : ℕ      -- 资金净流入板块
  outflowSectors : ℕ     -- 资金净流出板块
  risingSectors : ℕ      -- 上涨板块
  fallingSectors : ℕ     -- 下跌板块
  netFlow : ℚ            -- 总资金净流入
  inflowSharePct : ℚ     -- 资金流入占比
  risingSharePct : ℚ     -- 上涨占比
  topInflow : List SectorRow     -- 资金流入榜
  topOutflow : List SectorRow    -- 资金流出榜
  topRising : List SectorRow     -- 涨幅榜
  topFalling : List SectorRow    -- 跌幅榜
  mostActive : List SectorRow    -- 活跃榜
  marketSentiment : MarketSentiment
  rawData : List SectorRow
deriving DecidableEq

/-- `SectorProcessor.process_sector_data` (sector/processor.py lines 16-103):
`none` models the empty dict returned for an empty input table.  The 活跃榜
fallback's zeroing of the displayed turnover field is presentation-side and
keeps the selected rows themselves. -/
def process_sector_data (rows : List SectorRow) : Option SectorStats :=
  if rows.isEmpty then none
  else
    let inflowRows := rows.filter (fun r => decide (0 < r.mainFund))
    let outflowRows := rows.filter (fun r => decide (r.mainFund < 0))
    let totalInflow := (inflowRows.map (fun r => r.mainFund)).sum
    let totalOutflow := (outflowRows.map (fun r => r.mainFund)).sum
    some
      { totalSectors := rows.length
        inflowSectors := inflowRows.length
        outflowSectors := outflowRows.length
        risingSectors := (rows.filter (fun r => decide (0 < r.pctChange))).length
        fallingSectors := (rows.filter (fun r => decide (r.pctChange < 0))).length
        netFlow := totalInflow + totalOutflow
        inflowSharePct := (inflowRows.length : ℚ) / (rows.length : ℚ) * 100
        risingSharePct := ((rows.filter (fun r => decide (0 < r.pctChange))).length : ℚ) /
          (rows.length : ℚ) * 100
        topInflow := if inflowRows.isEmpty then [] else nlargestBy (fun r => r.mainFund) 10 inflowRows
        topOutflow := if outflowRows.isEmpty then [] else nsmallestBy (fun r => r.mainFund) 10 outflowRows
        topRising := nlargestBy (fun r => r.pctChange) 10 rows
        topFalling := nsmallestBy (fun r => r.pctChange) 10 rows
        mostActive :=
          if 0 < (rows.map (fun r => r.turnoverRate)).sum then
            nlargestBy (fun r => r.turnoverRate) 10 rows
          else nlargestBy (fun r => |r.mainFund|) 10 rows
        marketSentiment := calculate_market_sentiment rows
        rawData := rows }

/-! ## Derived column names and concrete example inputs -/

/-- Every column name that `process_margin_summary` (without market data)
assigns unconditionally when its source columns are present.  `两融余额` is
absent on purpose: it is only created when missing, never overwritten. -/
def derived_names : List String :=
  ["净融资额", "融资占两融比例", "融券占两融比例", "市场整体维持担保比例", "融资周转率",
   "融资余额_日变化", "融资余额_日变化率", "融资余额_周变化率", "融资余额_月变化率",
   "融券余额_日变化", "融券余额_日变化率", "融券余额_周变化率", "融券余额_月变化率",
   "两融余额_日变化", "两融余额_日变化率", "两融余额_周变化率", "两融余额_月变化率",
   "融资买入额_日变化", "融资买入额_日变化率", "融资买入额_周变化率", "融资买入额_月变化率",
   "融资余额_MA5", "融资余额_MA5_偏离度", "融资余额_MA10", "融资余额_MA10_偏离度",
   "融资余额_MA20", "融资余额_MA20_偏离度", "融资余额_MA60", "融资余额_MA60_偏离度",
   "融券余额_MA5", "融券余额_MA5_偏离度", "融券余额_MA10", "融券余额_MA10_偏离度",
   "融券余额_MA20", "融券余额_MA20_偏离度", "融券余额_MA60", "融券余额_MA60_偏离度",
   "两融余额_MA5", "两融余额_MA5_偏离度", "两融余额_MA10", "两融余额_MA10_偏离度",
   "两融余额_MA20", "两融余额_MA20_偏离度", "两融余额_MA60", "两融余额_MA60_偏离度",
   "融资余额_RSI", "两融余额_RSI",
   "融资余额_布林上轨", "融资余额_布林中轨", "融资余额_布林下轨", "融资余额_布林位置",
   "两融余额_布林上轨", "两融余额_布林中轨", "两融余额_布林下轨", "两融余额_布林位置"]

/-- Shanghai row for the C1 witness (date 20240102, all fields numeric). -/
def c1shRow : MarginRow :=
  { date := 20240102, rzmre := .num 5, rzye := .num 100, rqmcl := .num 7,
    rqyl := .num 8, rqye := .num 20, rzrqye := .num 120 }

/-- Shenzhen row for the C1 witness. -/
def c1szRow : MarginRow :=
  { date := 20240102, rzmre := .num 3, rzye := .num 50, rqmcl := .num 2,
    rqyl := .num 1, rqye := .num 10, rzrqye := .num 60 }

/-- The spec's §8 worked example: three constituents with weights
[0.5, 0.3, 0.2] and percent changes [2, −1, 4]. -/
def c2stocks : List StockRecord :=
  [{ code := "000001", name := "A", weight := 1 / 2, price := 10, pctChange := 2,
     mainInflow := 100, turnoverRate := 4, volume := 0, amount := 0 },
   { code := "000002", name := "B", weight := 3 / 10, price := 20, pctChange := -1,
     mainInflow := -50, turnoverRate := 2, volume := 0, amount := 0 },
   { code := "000003", name := "C", weight := 1 / 5, price := 30, pctChange := 4,
     mainInflow := 25, turnoverRate := 1, volume := 0, amount := 0 }]

/-- The spec's §8 worked example series financing_balance = [100, 110, 90]. -/
def c3frame : Frame :=
  [("融资余额", [some 100, some 110, some 90])]

/-- A frame whose reported combined balance (50) differs from financing +
short (100 + 0): a C4 counterexample input. -/
def c4frame : Frame :=
  [("融资余额", [some 100]), ("融券余额", [some 0]), ("两融余额", [some 50])]

/-- A consistent frame (combined = financing + short) for the C4 witness. -/
def c4okFrame : Frame :=
  [("融资余额", [some 100]), ("融券余额", [some 10]), ("两融余额", [some 110])]

/-- Shanghai row whose financing-balance field is non-numeric (C5). -/
def c5shRow : MarginRow :=
  { date := 20240102, rzmre := .num 5, rzye := .text "N/A", rqmcl := .num 7,
    rqyl := .num 8, rqye := .num 20, rzrqye := .num 120 }

/-- Shenzhen row whose financing-balance field is non-numeric (C5). -/
def c5szRow : MarginRow :=
  { date := 20240102, rzmre := .num 3, rzye := .text "n.a.", rqmcl := .num 2,
    rqyl := .num 1, rqye := .num 10, rzrqye := .num 60 }

/-- Shanghai table for C7: one row dated 20240101. -/
def c7sh : List MarginRow :=
  [{ date := 20240101, rzmre := .num 1, rzye := .num 2, rqmcl := .num 3,
     rqyl := .num 4, rqye := .num 5, rzrqye := .num 7 }]

/-- Shenzhen table for C7 whose only date differs from `c7sh`'s. -/
def c7szDisjoint : List MarginRow :=
  [{ date := 20240105, rzmre := .num 1, rzye := .num 2, rqmcl := .num 3,
     rqyl := .num 4, rqye := .num 5, rzrqye := .num 7 }]

/-- Shenzhen table for the C7 witness, sharing `c7sh`'s date. -/
def c7szShared : List MarginRow :=
  [{ date := 20240101, rzmre := .num 10, rzye := .num 20, rqmcl := .num 30,
     rqyl := .num 40, rqye := .num 50, rzrqye := .num 70 }]

/-- A strictly rising two-point series: RSI is defined (= 100) at index 1. -/
def c8series : List Cell := [some 1, some 2]

/-- A canonical frame that already carries a column named 净融资额 whose value
(999) disagrees with 融资余额 − 融券余额 (= 90): a C9 counterexample input. -/
def c9frame : Frame :=
  [("交易日期", [some 20240101]), ("融资余额", [some 100]),
   ("融券余额", [some 10]), ("净融资额", [some 999])]

/-- A canonical two-row frame with sorted dates for the C9 witness. -/
def c9okFrame : Frame :=
  [("交易日期", [some 20240101, some 20240102]),
   ("融资余额", [some 100, some 110])]

/-! ## Frame lemmas shared by several claims -/

theorem find?_setCol_map (f : Frame) (n : String) (col : List Cell) :
    (f.map (fun p => if p.1 == n then (n, col) else p)).find? (fun p => p.1 == n) =
      (f.find? (fun p => p.1 == n)).map (fun _ => (n, col)) := by
  induction f with
  | nil => rfl
  | cons p t ih =>
    rw [List.map_cons]
    by_cases h : (p.1 == n) = true
    · rw [if_pos h,
        @List.find?_cons_of_pos _ (fun q => q.1 == n) (n, col) _ (by simp),
        @List.find?_cons_of_pos _ (fun q => q.1 == n) p t h]
      rfl
    · rw [if_neg h,
        @List.find?_cons_of_neg _ (fun q => q.1 == n) p _ h,
        @List.find?_cons_of_neg _ (fun q => q.1 == n) p t h, ih]

theorem find?_setCol_map_ne (f : Frame) (n c : String) (col : List Cell) (hcn : c ≠ n) :
    (f.map (fun p => if p.1 == n then (n, col) else p)).find? (fun p => p.1 == c) =
      f.find? (fun p => p.1 == c) := by
  have hnc : ¬ ((n, col).1 == c) = true := by
    simp only [beq_iff_eq]
    exact fun hh => hcn hh.symm
  induction f with
  | nil => rfl
  | cons p t ih =>
    rw [List.map_cons]
    by_cases h : (p.1 == n) = true
    · have hp : p.1 = n := by simpa using h
      have hpc : ¬ (p.1 == c) = true := by
        simp only [beq_iff_eq, hp]
        exact fun hh => hcn hh.symm
      rw [if_pos h,
        @List.find?_cons_of_neg _ (fun q => q.1 == c) (n, col) _ hnc,
        @List.find?_cons_of_neg _ (fun q => q.1 == c) p t hpc, ih]
    · rw [if_neg h]
      by_cases hc : (p.1 == c) = true
      · rw [@List.find?_cons_of_pos _ (fun q => q.1 == c) p _ hc,
          @List.find?_cons_of_pos _ (fun q => q.1 == c) p t hc]
      · rw [@List.find?_cons_of_neg _ (fun q => q.1 == c) p _ hc,
          @List.find?_cons_of_neg _ (fun q => q.1 == c) p t hc, ih]

theorem getCol_setCol_self (f : Frame) (n : String) (col : List Cell) :
    getCol (setCol f n col) n = some col := by
  unfold setCol
  by_cases h : hasCol f n = true
  · rw [if_pos h]
    unfold getCol
    rw [find?_setCol_map]
    unfold hasCol getCol at h
    cases hf : f.find? (fun p => p.1 == n) with
    | none => rw [hf] at h; simp at h
    | some v => simp
  · rw [if_neg h]
    unfold hasCol getCol at h
    cases hf : f.find? (fun p => p.1 == n) with
    | none =>
      unfold getCol
      rw [List.find?_append, hf]
      simp [List.find?]
    | some v => rw [hf] at h; simp at h

theorem getCol_setCol_ne (f : Frame) (n c : String) (col : List Cell) (hcn : c ≠ n) :
    getCol (setCol f n col) c = getCol f c := by
  unfold setCol
  by_cases h : hasCol f n = true
  · rw [if_pos h]
    unfold getCol
    rw [find?_setCol_map_ne f n c col hcn]
  · rw [if_neg h]
    unfold getCol
    rw [List.find?_append]
    cases hf : f.find? (fun p => p.1 == c) with
    | some v => simp
    | none =>
      have hnc : ¬ ((n, col).1 == c) = true := by
        simp only [beq_iff_eq]
        exact fun hh => hcn hh.symm
      rw [Option.none_or,
        @List.find?_cons_of_neg _ (fun q => q.1 == c) (n, col) _ hnc]
      rfl

theorem getCol_setCol (f : Frame) (n c : String) (col : List Cell) :
    getCol (setCol f n col) c = if c = n then some col else getCol f c := by
  by_cases h : c = n
  · subst h; simp [getCol_setCol_self]
  · simp [h, getCol_setCol_ne f n c col h]

theorem hasCol_setCol_ne (f : Frame) (n c : String) (col : List Cell) (hcn : c ≠ n) :
    hasCol (setCol f n col) c = hasCol f c := by
  unfold hasCol
  rw [getCol_setCol_ne f n c col hcn]

theorem colOf_eq_of_getCol {f : Frame} {c : String} {xs : List Cell}
    (h : getCol f c = some xs) : colOf f c = xs := by
  unfold colOf
  rw [h]
  rfl

theorem hasCol_of_getCol {f : Frame} {c : String} {xs : List Cell}
    (h : getCol f c = some xs) : hasCol f c = true := by
  unfold hasCol
  rw [h]
  rfl

/-! ## C2: weighted sector aggregation -/

/-- C2: for a non-empty constituent table with nonzero total weight, the
aggregated percent change and turnover are the weight-normalised weighted
means Σ(value×weight)/Σ(weight); a table whose weights sum to 0 (in
particular an empty one) aggregates to the empty result instead of dividing
by zero. -/
theorem c2_weighted_aggregation (stocks : List StockRecord) (indexCode : String) :
    (stocks ≠ [] → (stocks.map (fun s => s.weight)).sum ≠ 0 →
      ∃ r, aggregate_sector_data stocks indexCode = some r ∧
        r.pctChange = (stocks.map (fun s => s.pctChange * s.weight)).sum /
          (stocks.map (fun s => s.weight)).sum ∧
        r.turnoverRate = (stocks.map (fun s => s.turnoverRate * s.weight)).sum /
          (stocks.map (fun s => s.weight)).sum) ∧
    ((stocks.map (fun s => s.weight)).sum = 0 →
      aggregate_sector_data stocks indexCode = none) := by
  constructor
  · intro hne hw
    unfold aggregate_sector_data
    rw [if_neg (by simpa [List.isEmpty_iff] using hne), if_neg hw]
    exact ⟨_, rfl, rfl, rfl⟩
  · intro hw
    unfold aggregate_sector_data
    by_cases h : stocks.isEmpty
    · rw [if_pos h]
    · rw [if_neg h, if_pos hw]

/-- C2 witness: the spec's worked example (weights [0.5, 0.3, 0.2], percent
changes [2, −1, 4]) aggregates to the weighted mean 1.5. -/
theorem c2_weighted_aggregation_witness :
    ∃ r, aggregate_sector_data c2stocks "000300" = some r ∧ r.pctChange = 3 / 2 := by
  obtain ⟨r, hr, hpct, _⟩ :=
    (c2_weighted_aggregation c2stocks "000300").1 (by decide) (by norm_num [c2stocks])
  refine ⟨r, hr, ?_⟩
  rw [hpct]
  norm_num [c2stocks]

/-! ## C6: empty-input safety -/

/-- C6: each core component — margin summary processing, sector data
processing, trend analysis — maps an empty input table to its empty result
(empty frame or empty dict); the embedding is total, so no exception can
arise. -/
theorem c6_empty_input_safety (sqrtFn : ℚ → ℚ) (f g : Frame) (rows : List SectorRow)
    (hf : frameEmpty f = true) (hrows : rows = []) (hg : frameEmpty g = true) :
    process_margin_summary sqrtFn f = [] ∧
    process_sector_data rows = none ∧
    analyze_margin_trends sqrtFn g = none := by
  refine ⟨?_, ?_, ?_⟩
  · unfold process_margin_summary
    rw [if_pos hf]
  · subst hrows
    rfl
  · unfold analyze_margin_trends
    rw [if_pos hg]

/-- C6 witness: the three components evaluated at concrete empty inputs. -/
theorem c6_empty_input_safety_witness :
    process_margin_summary (fun q => q) [] = [] ∧
    process_sector_data ([] : List SectorRow) = none ∧
    analyze_margin_trends (fun q => q) [] = none :=
  c6_empty_input_safety (fun q => q) [] [] [] rfl rfl rfl

/-! ## C5: non-numeric values in the merge -/

/-- C5 counterexample: with the financing-balance field non-numeric on both
exchanges for an in-range date, the merged row carries the value 0 for it —
the coerced-missing values are filled with zero inside the co-merge sums, not
excluded: the claim "never to zero" fails on
`_merge_sh_sz_margin_data`'s `.fillna(0)`. -/
theorem c5_counterexample :
    c5shRow.rzye = RawCell.text "N/A" ∧ c5szRow.rzye = RawCell.text "n.a." ∧
    (merge_sh_sz_margin_data [c5shRow] [c5szRow] 20240101 20240103).map
      (fun m => m.rzye) = [0] := by
  refine ⟨rfl, rfl, ?_⟩
  show (merge_sh_sz_margin_data [c5shRow] [c5szRow] 20240101 20240103).map
      (fun m => m.rzye) = [0]
  simp only [merge_sh_sz_margin_data, filter_date_range, c5shRow, c5szRow,
    List.filter, List.isEmpty, co_merge_rows, merge_rows, fillna0_sum,
    to_numeric_cell, List.flatMap, List.map, List.flatten]
  norm_num

/-- C5 (amended): `pd.to_numeric(..., errors="coerce")` in column
standardisation coerces a non-numeric cell to missing — never to zero — but
the exchange co-merge then fills each missing side with 0 before summing: the
merged field equals the other side's numeric value filled with 0, and is 0
(not missing) when both sides are non-numeric. -/
theorem c5_coercion_and_fill (col : List RawCell) (i : ℕ) (s : String)
    (a b : MarginRow) (t : String)
    (hi : col[i]? = some (RawCell.text s)) (ha : a.rzye = RawCell.text t) :
    (to_numeric_column col)[i]? = some none ∧
    (∀ q : ℚ, (to_numeric_column col)[i]? ≠ some (some q)) ∧
    (merge_rows a b).rzye = (to_numeric_cell b.rzye).getD 0 ∧
    (∀ u : String, b.rzye = RawCell.text u → (merge_rows a b).rzye = 0) := by
  have h1 : (to_numeric_column col)[i]? = some none := by
    unfold to_numeric_column
    rw [List.getElem?_map, hi]
    rfl
  refine ⟨h1, ?_, ?_, ?_⟩
  · intro q hq
    rw [h1] at hq
    simp at hq
  · show fillna0_sum a.rzye b.rzye = (to_numeric_cell b.rzye).getD 0
    unfold fillna0_sum
    rw [ha]
    show (none : Cell).getD 0 + (to_numeric_cell b.rzye).getD 0 = _
    rw [Option.getD_none, zero_add]
  · intro u hb
    show fillna0_sum a.rzye b.rzye = 0
    unfold fillna0_sum
    rw [ha, hb]
    show (none : Cell).getD 0 + (none : Cell).getD 0 = 0
    rw [Option.getD_none, add_zero]

/-- C5 witness: the amended statement at the concrete non-numeric rows. -/
theorem c5_coercion_and_fill_witness :
    (to_numeric_column [RawCell.text "x"])[0]? = some none ∧
    (merge_rows c5shRow c5szRow).rzye = 0 := by
  obtain ⟨h1, _, _, h4⟩ :=
    c5_coercion_and_fill [RawCell.text "x"] 0 "x" c5shRow c5szRow "N/A" rfl rfl
  exact ⟨h1, h4 "n.a." rfl⟩

/-! ## C7: fallback to the most recent 20 rows -/

theorem tail20_ne_nil {l : List MarginRow} (h : l ≠ []) : tail20 l ≠ [] := by
  have hl : 0 < l.length := List.length_pos.mpr h
  have h2 : 0 < (tail20 l).length := by
    unfold tail20
    rw [List.length_drop]
    omega
  exact List.length_pos.mp h2

/-- C7 (amended): when either date-filtered slice of the (non-empty) exchange
tables is empty, the merge does not fail outright but proceeds by co-merging
the most recent 20 rows of each unfiltered table; the result is non-empty
whenever those two windows share a date (and only then can it be non-empty,
so a date-disjoint fallback still yields an empty table). -/
theorem c7_fallback_to_recent (sh sz : List MarginRow) (s e : ℕ)
    (hsh : sh ≠ []) (hsz : sz ≠ [])
    (hemp : filter_date_range s e sh = [] ∨ filter_date_range s e sz = []) :
    merge_sh_sz_margin_data sh sz s e = co_merge_rows (tail20 sh) (tail20 sz) ∧
    ((∃ a ∈ tail20 sh, ∃ b ∈ tail20 sz, b.date = a.date) →
      merge_sh_sz_margin_data sh sz s e ≠ []) := by
  have hmain : merge_sh_sz_margin_data sh sz s e = co_merge_rows (tail20 sh) (tail20 sz) := by
    unfold merge_sh_sz_margin_data
    rw [if_neg (by simp [List.isEmpty_eq_false.mpr hsh, List.isEmpty_eq_false.mpr hsz])]
    rw [if_pos (by
      rcases hemp with h | h
      · simp [List.isEmpty_iff.mpr h]
      · simp [List.isEmpty_iff.mpr h])]
    rw [if_neg (by
      simp [List.isEmpty_eq_false.mpr (tail20_ne_nil hsh),
        List.isEmpty_eq_false.mpr (tail20_ne_nil hsz)])]
  refine ⟨hmain, ?_⟩
  rintro ⟨a, ha, b, hb, hdate⟩
  rw [hmain]
  have hmem : merge_rows a b ∈ co_merge_rows (tail20 sh) (tail20 sz) := by
    unfold co_merge_rows
    exact List.mem_flatMap.mpr ⟨a, ha,
      List.mem_map.mpr ⟨b, List.mem_filter.mpr ⟨hb, by simp [hdate]⟩, rfl⟩⟩
  exact List.ne_nil_of_mem hmem

/-- C7 witness: both tables non-empty, both filtered slices empty for the
requested 2030 range, and the merge proceeds on the 20-row tails, producing a
non-empty result because the tails share the date 20240101. -/
theorem c7_fallback_to_recent_witness :
    merge_sh_sz_margin_data c7sh c7szShared 20300101 20300102 =
      co_merge_rows (tail20 c7sh) (tail20 c7szShared) ∧
    merge_sh_sz_margin_data c7sh c7szShared 20300101 20300102 ≠ [] := by
  have h := c7_fallback_to_recent c7sh c7szShared 20300101 20300102
    (by simp [c7sh]) (by simp [c7szShared])
    (Or.inl (by simp [filter_date_range, c7sh, List.filter]))
  refine ⟨h.1, h.2 ?_⟩
  refine ⟨c7sh[0], ?_, c7szShared[0], ?_, rfl⟩
  · show c7sh[0] ∈ tail20 c7sh
    simp [tail20, c7sh]
  · show c7szShared[0] ∈ tail20 c7szShared
    simp [tail20, c7szShared]

/-- C7 counterexample: both exchange tables are non-empty and the filtered
slice is empty, yet the merge returns the empty table, because the fallback
windows share no date — the claim's "does not return empty" fails. -/
theorem c7_counterexample :
    c7sh ≠ [] ∧ c7szDisjoint ≠ [] ∧
    filter_date_range 20300101 20300102 c7sh = [] ∧
    merge_sh_sz_margin_data c7sh c7szDisjoint 20300101 20300102 = [] := by
  refine ⟨by simp [c7sh], by simp [c7szDisjoint], ?_, ?_⟩
  · simp [filter_date_range, c7sh, List.filter]
  · simp [merge_sh_sz_margin_data, filter_date_range, c7sh, c7szDisjoint,
      List.filter, tail20, co_merge_rows]

/-! ## C1: exchange co-merge sums the five numeric fields -/

/-- C1: for every date present in both date-filtered exchange tables (each
table holding at most one row per date, as the exchange books do), the unique
merged row at that date carries, in each of the five summed numeric fields —
financing buy amount, financing balance, short-sell volume, short balance,
combined balance — exactly the sum of exchange A's and exchange B's numeric
values for that field. -/
theorem c1_co_merge_sums (sh sz : List MarginRow) (s e : ℕ) (a b : MarginRow)
    (hsh : sh ≠ []) (hsz : sz ≠ [])
    (ha : a ∈ filter_date_range s e sh) (hb : b ∈ filter_date_range s e sz)
    (hdate : b.date = a.date)
    (hu1 : (filter_date_range s e sh).Pairwise (fun r q => r.date ≠ q.date))
    (hu2 : (filter_date_range s e sz).Pairwise (fun r q => r.date ≠ q.date)) :
    merge_rows a b ∈ merge_sh_sz_margin_data sh sz s e ∧
    (∀ m ∈ merge_sh_sz_margin_data sh sz s e, m.date = a.date → m = merge_rows a b) ∧
    (∀ x y : ℚ, a.rzmre = RawCell.num x → b.rzmre = RawCell.num y →
      (merge_rows a b).rzmre = x + y) ∧
    (∀ x y : ℚ, a.rzye = RawCell.num x → b.rzye = RawCell.num y →
      (merge_rows a b).rzye = x + y) ∧
    (∀ x y : ℚ, a.rqmcl = RawCell.num x → b.rqmcl = RawCell.num y →
      (merge_rows a b).rqmcl = x + y) ∧
    (∀ x y : ℚ, a.rqye = RawCell.num x → b.rqye = RawCell.num y →
      (merge_rows a b).rqye = x + y) ∧
    (∀ x y : ℚ, a.rzrqye = RawCell.num x → b.rzrqye = RawCell.num y →
      (merge_rows a b).rzrqye = x + y) := by
  have hmerge : merge_sh_sz_margin_data sh sz s e =
      co_merge_rows (filter_date_range s e sh) (filter_date_range s e sz) := by
    unfold merge_sh_sz_margin_data
    rw [if_neg (by simp [List.isEmpty_eq_false.mpr hsh, List.isEmpty_eq_false.mpr hsz])]
    rw [if_neg (by
      simp [List.isEmpty_eq_false.mpr (List.ne_nil_of_mem ha),
        List.isEmpty_eq_false.mpr (List.ne_nil_of_mem hb)])]
  have hsymm : Symmetric (fun r q : MarginRow => r.date ≠ q.date) :=
    fun _ _ h hh => h hh.symm
  refine ⟨?_, ?_, ?_, ?_, ?_, ?_, ?_⟩
  · rw [hmerge]
    unfold co_merge_rows
    exact List.mem_flatMap.mpr ⟨a, ha,
      List.mem_map.mpr ⟨b, List.mem_filter.mpr ⟨hb, by simp [hdate]⟩, rfl⟩⟩
  · intro m hm hmd
    rw [hmerge] at hm
    unfold co_merge_rows at hm
    obtain ⟨a2, ha2, hm2⟩ := List.mem_flatMap.mp hm
    obtain ⟨b2, hb2f, rfl⟩ := List.mem_map.mp hm2
    obtain ⟨hb2, hb2d⟩ := List.mem_filter.mp hb2f
    have hb2d2 : b2.date = a2.date := by simpa using hb2d
    have ha2d : a2.date = a.date := hmd
    have ha2a : a2 = a := by
      by_cases hne : a2 = a
      · exact hne
      · exact absurd ha2d (hu1.forall hsymm ha2 ha hne)
    subst ha2a
    have hb2b : b2 = b := by
      by_cases hne : b2 = b
      · exact hne
      · exact absurd (hb2d2.trans hdate.symm) (hu2.forall hsymm hb2 hb hne)
    subst hb2b
    rfl
  all_goals
    intro x y hx hy
    simp [merge_rows, fillna0_sum, hx, hy, to_numeric_cell]

/-- C1 witness: the two concrete exchange rows for 20240102 merge to a row
whose financing balance is 100 + 50 and whose combined balance is 120 + 60. -/
theorem c1_co_merge_sums_witness :
    merge_rows c1shRow c1szRow ∈
      merge_sh_sz_margin_data [c1shRow] [c1szRow] 20240101 20240103 ∧
    (merge_rows c1shRow c1szRow).rzye = 100 + 50 ∧
    (merge_rows c1shRow c1szRow).rzrqye = 120 + 60 := by
  have hfs : filter_date_range 20240101 20240103 [c1shRow] = [c1shRow] := by
    simp [filter_date_range, c1shRow, List.filter]
  have hfz : filter_date_range 20240101 20240103 [c1szRow] = [c1szRow] := by
    simp [filter_date_range, c1szRow, List.filter]
  have h := c1_co_merge_sums [c1shRow] [c1szRow] 20240101 20240103 c1shRow c1szRow
    (by simp) (by simp)
    (by rw [hfs]; exact List.mem_singleton.mpr rfl)
    (by rw [hfz]; exact List.mem_singleton.mpr rfl)
    rfl
    (by rw [hfs]; exact List.pairwise_singleton _ _)
    (by rw [hfz]; exact List.pairwise_singleton _ _)
  exact ⟨h.1, h.2.2.2.1 100 50 rfl rfl, h.2.2.2.2.2.2 120 60 rfl rfl⟩

/-! ## C8 and C10: RSI -/

theorem gains_nonneg (xs : List Cell) : ∀ v ∈ gains xs, 0 ≤ v := by
  intro v hv
  unfold gains at hv
  obtain ⟨d, _, rfl⟩ := List.mem_map.mp hv
  cases d with
  | none => exact le_refl 0
  | some w =>
    by_cases h : 0 < w
    · simpa [h] using h.le
    · simp [h]

theorem losses_nonneg (xs : List Cell) : ∀ v ∈ losses xs, 0 ≤ v := by
  intro v hv
  unfold losses at hv
  obtain ⟨d, _, rfl⟩ := List.mem_map.mp hv
  cases d with
  | none => exact le_refl 0
  | some w =>
    by_cases h : w < 0
    · simpa [h] using (neg_nonneg.mpr h.le)
    · simp [h]

theorem rollingMeanQ_nonneg (n : ℕ) (l : List ℚ) (hl : ∀ v ∈ l, 0 ≤ v)
    (i : ℕ) (g : ℚ) (hg : (rollingMeanQ n l)[i]? = some g) : 0 ≤ g := by
  unfold rollingMeanQ at hg
  rw [List.getElem?_map] at hg
  cases hi : (List.range l.length)[i]? with
  | none => rw [hi] at hg; simp at hg
  | some j =>
    rw [hi] at hg
    simp only [Option.map_some'] at hg
    have hgj : ((l.take (j + 1)).drop (j + 1 - n)).sum /
        (((l.take (j + 1)).drop (j + 1 - n)).length : ℚ) = g := by
      exact Option.some.inj hg
    have hw : ∀ v ∈ (l.take (j + 1)).drop (j + 1 - n), 0 ≤ v := fun v hv =>
      hl v (List.mem_of_mem_take (List.mem_of_mem_drop hv))
    have hs : 0 ≤ ((l.take (j + 1)).drop (j + 1 - n)).sum := List.sum_nonneg hw
    have hlen : (0 : ℚ) ≤ (((l.take (j + 1)).drop (j + 1 - n)).length : ℚ) := by
      positivity
    rw [← hgj]
    exact div_nonneg hs hlen

theorem avg_gain_nonneg (xs : List Cell) (i : ℕ) (g : ℚ)
    (hg : (avg_gain xs)[i]? = some g) : 0 ≤ g := by
  unfold avg_gain at hg
  exact rollingMeanQ_nonneg 14 (gains xs) (gains_nonneg xs) i g hg

theorem avg_loss_nonneg (xs : List Cell) (i : ℕ) (l : ℚ)
    (hl : (avg_loss xs)[i]? = some l) : 0 ≤ l := by
  unfold avg_loss at hl
  exact rollingMeanQ_nonneg 14 (losses xs) (losses_nonneg xs) i l hl

theorem round_mono_rat {a b : ℚ} (h : a ≤ b) : round a ≤ round b := by
  rw [round_eq, round_eq]
  exact Int.floor_le_floor (by linarith)

theorem round2_nonneg {x : ℚ} (h : 0 ≤ x) : 0 ≤ round2 x := by
  unfold round2
  have h1 : (0 : ℤ) ≤ round (x * 100) := by
    have h2 : round ((0 : ℚ)) ≤ round (x * 100) := round_mono_rat (by linarith)
    rwa [round_zero] at h2
  have h3 : (0 : ℚ) ≤ ((round (x * 100) : ℤ) : ℚ) := by exact_mod_cast h1
  linarith

theorem round2_le_100 {x : ℚ} (h : x ≤ 100) : round2 x ≤ 100 := by
  unfold round2
  have h1 : round (x * 100) ≤ round ((10000 : ℚ)) := round_mono_rat (by linarith)
  have h2 : round ((10000 : ℚ)) = 10000 := by norm_num
  have h3 : ((round (x * 100) : ℤ) : ℚ) ≤ 10000 := by
    rw [h2] at h1
    exact_mod_cast h1
  linarith

theorem round2_100 : round2 (100 : ℚ) = 100 := by
  unfold round2
  norm_num

/-- C8: every RSI value produced by `_calculate_rsi` that is defined (not
NaN) lies in the closed interval [0, 100]. -/
theorem c8_rsi_bounds (xs : List Cell) (i : ℕ) (q : ℚ)
    (h : (calculate_rsi xs)[i]? = some (some q)) : 0 ≤ q ∧ q ≤ 100 := by
  unfold calculate_rsi at h
  rw [List.getElem?_map, List.getElem?_zipWith] at h
  cases hg : (avg_gain xs)[i]? with
  | none => rw [hg] at h; simp at h
  | some g =>
    cases hl : (avg_loss xs)[i]? with
    | none => rw [hg, hl] at h; simp at h
    | some l =>
      rw [hg, hl] at h
      simp only [Option.map_some', Option.some.injEq] at h
      have hgn : 0 ≤ g := avg_gain_nonneg xs i g hg
      have hln : 0 ≤ l := avg_loss_nonneg xs i l hl
      unfold rsi_point at h
      by_cases hlpos : 0 < l
      · rw [if_pos hlpos] at h
        have hq : q = round2 (100 - 100 / (1 + g / l)) := by
          simp only [cellRound2, Option.map_some', Option.some.injEq] at h
          exact h.symm
        have hd : 0 ≤ g / l := div_nonneg hgn hlpos.le
        have h1 : (0 : ℚ) < 1 + g / l := by linarith
        have h2 : 100 / (1 + g / l) ≤ 100 := div_le_self (by norm_num) (by linarith)
        have h3 : 0 < 100 / (1 + g / l) := by positivity
        constructor
        · rw [hq]; exact round2_nonneg (by linarith)
        · rw [hq]; exact round2_le_100 (by linarith)
      · rw [if_neg hlpos] at h
        by_cases hgpos : 0 < g
        · rw [if_pos hgpos] at h
          have hq : q = round2 100 := by
            simp only [cellRound2, Option.map_some', Option.some.injEq] at h
            exact h.symm
          rw [hq, round2_100]
          norm_num
        · rw [if_neg hgpos] at h
          simp [cellRound2] at h

/-- C10: wherever the 14-period rolling average loss is zero, the RSI is
exactly 100 if the rolling average gain is positive (IEEE `rs = +inf`), and
undefined (NaN) if the average gain is zero as well (`rs = 0/0`). -/
theorem c10_rsi_zero_loss (xs : List Cell) (i : ℕ) (g : ℚ)
    (hg : (avg_gain xs)[i]? = some g) (hl : (avg_loss xs)[i]? = some 0) :
    (0 < g → (calculate_rsi xs)[i]? = some (some 100)) ∧
    (g = 0 → (calculate_rsi xs)[i]? = some none) := by
  unfold calculate_rsi
  rw [List.getElem?_map, List.getElem?_zipWith, hg, hl]
  constructor
  · intro h0
    simp [rsi_point, h0, cellRound2, round2_100]
  · intro h0
    subst h0
    simp [rsi_point, cellRound2]

theorem c8_gains_eval : gains c8series = [0, 1] := by
  norm_num [gains, diffCells, c8series, cellAtIdx, cellSub, List.range, List.range.loop]

theorem c8_losses_eval : losses c8series = [0, 0] := by
  norm_num [losses, diffCells, c8series, cellAtIdx, cellSub, List.range, List.range.loop]

theorem c8_avg_gain_eval : (avg_gain c8series)[1]? = some (1 / 2) := by
  norm_num [avg_gain, rollingMeanQ, c8_gains_eval, List.range, List.range.loop]

theorem c8_avg_loss_eval : (avg_loss c8series)[1]? = some 0 := by
  norm_num [avg_loss, rollingMeanQ, c8_losses_eval, List.range, List.range.loop]

theorem c10_avg_gain_eval0 : (avg_gain c8series)[0]? = some 0 := by
  norm_num [avg_gain, rollingMeanQ, c8_gains_eval, List.range, List.range.loop]

theorem c10_avg_loss_eval0 : (avg_loss c8series)[0]? = some 0 := by
  norm_num [avg_loss, rollingMeanQ, c8_losses_eval, List.range, List.range.loop]

/-- C10 witness: on the rising series [1, 2], the RSI at index 1 (average
loss 0, average gain ½) is exactly 100, and at index 0 (both averages 0) it
is undefined. -/
theorem c10_rsi_zero_loss_witness :
    (calculate_rsi c8series)[1]? = some (some 100) ∧
    (calculate_rsi c8series)[0]? = some none :=
  ⟨(c10_rsi_zero_loss c8series 1 (1 / 2) c8_avg_gain_eval c8_avg_loss_eval).1 (by norm_num),
   (c10_rsi_zero_loss c8series 0 0 c10_avg_gain_eval0 c10_avg_loss_eval0).2 rfl⟩

/-- C8 witness: the defined RSI value 100 on the series [1, 2] satisfies the
bounds. -/
theorem c8_rsi_bounds_witness :
    (calculate_rsi c8series)[1]? = some (some 100) ∧ 0 ≤ (100 : ℚ) ∧ (100 : ℚ) ≤ 100 := by
  have hval : (calculate_rsi c8series)[1]? = some (some 100) := by
    unfold calculate_rsi
    rw [List.getElem?_map, List.getElem?_zipWith, c8_avg_gain_eval, c8_avg_loss_eval]
    simp [rsi_point, cellRound2, round2_100]
  exact ⟨hval, c8_rsi_bounds c8series 1 100 hval⟩

/-! ## C3: day-over-day percent change -/

theorem ffill_from_map_some (last : Cell) (xs : List ℚ) :
    ffill_from last (xs.map some) = xs.map some := by
  induction xs generalizing last with
  | nil => rfl
  | cons x t ih => simp [ffill_from, ih]

theorem ffill_map_some (xs : List ℚ) : ffill (xs.map some) = xs.map some :=
  ffill_from_map_some none xs

theorem pct_rate_col_length (n : ℕ) (zs : List Cell) :
    (pct_rate_col n zs).length = zs.length := by
  simp [pct_rate_col, pct_change_cells]

theorem pct_rate_col_one_zero (zs : List Cell) (h : 0 < zs.length) :
    (pct_rate_col 1 zs)[0]? = some none := by
  unfold pct_rate_col pct_change_cells
  rw [List.getElem?_map, List.getElem?_map, List.getElem?_range h]
  simp [cellMulC, cellRound2]

theorem pct_rate_col_one_entry (xs : List ℚ) (i : ℕ) (x p : ℚ)
    (hi : 0 < i) (hx : xs[i]? = some x) (hp : xs[i - 1]? = some p) (hpne : p ≠ 0) :
    (pct_rate_col 1 (xs.map some))[i]? = some (some (round2 ((x - p) / p * 100))) := by
  have hilen : i < xs.length := by
    by_contra hcon
    rw [List.getElem?_eq_none (by omega)] at hx
    exact Option.noConfusion hx
  unfold pct_rate_col pct_change_cells
  rw [ffill_map_some]
  rw [List.getElem?_map, List.getElem?_map, List.getElem?_range (by simpa using hilen)]
  have hfx : cellAtIdx (xs.map some) i = some x := by
    unfold cellAtIdx
    rw [List.getElem?_map, hx]
    rfl
  have hfp : cellAtIdx (xs.map some) (i - 1) = some p := by
    unfold cellAtIdx
    rw [List.getElem?_map, hp]
    rfl
  simp only [Option.map_some', if_neg (show ¬ i < 1 by omega), hfx, hfp,
    if_neg hpne, cellMulC, cellRound2, Option.some.injEq]
  have harith : (x / p - 1) * 100 = (x - p) / p * 100 := by
    field_simp
  rw [harith]

theorem add_change_cols_getCol_ne (f : Frame) (c cc : String)
    (h1 : cc ≠ c ++ "_日变化") (h2 : cc ≠ c ++ "_日变化率")
    (h3 : cc ≠ c ++ "_周变化率") (h4 : cc ≠ c ++ "_月变化率") :
    getCol (add_change_cols f c) cc = getCol f cc := by
  unfold add_change_cols
  by_cases h : hasCol f c = true
  · rw [if_pos h, getCol_setCol_ne _ _ _ _ h4, getCol_setCol_ne _ _ _ _ h3,
      getCol_setCol_ne _ _ _ _ h2, getCol_setCol_ne _ _ _ _ h1]
  · rw [if_neg h]

theorem add_change_cols_day_rate (f : Frame) (c : String)
    (h : hasCol f c = true)
    (h3 : c ++ "_日变化率" ≠ c ++ "_周变化率")
    (h4 : c ++ "_日变化率" ≠ c ++ "_月变化率") :
    getCol (add_change_cols f c) (c ++ "_日变化率") =
      some (pct_rate_col 1 (colOf f c)) := by
  unfold add_change_cols
  rw [if_pos h, getCol_setCol_ne _ _ _ _ h4, getCol_setCol_ne _ _ _ _ h3,
    getCol_setCol_self]

/-- C3: for every tracked field column (financing balance, short balance,
combined balance, buy-in amount) holding plain numeric values, the
day-over-day percent-change column produced by `_calculate_change_rates` is
undefined (NaN) — not zero — at the first point, and at every later point
whose previous value is nonzero it equals
(current − previous) / previous × 100 rounded to 2 decimals. -/
theorem c3_day_change_rate (f : Frame) (c : String) (xs : List ℚ)
    (hc : c ∈ change_columns)
    (hcol : getCol f c = some (xs.map some)) :
    ∃ ys, getCol (calculate_change_rates f) (c ++ "_日变化率") = some ys ∧
      ys.length = xs.length ∧
      (0 < xs.length → ys[0]? = some none) ∧
      (∀ i x p, 0 < i → xs[i]? = some x → xs[i - 1]? = some p → p ≠ 0 →
        ys[i]? = some (some (round2 ((x - p) / p * 100)))) := by
  have hhas : hasCol f c = true := hasCol_of_getCol hcol
  have hcolof : colOf f c = xs.map some := colOf_eq_of_getCol hcol
  have hmain : getCol (calculate_change_rates f) (c ++ "_日变化率") =
      some (pct_rate_col 1 (xs.map some)) := by
    simp only [change_columns, List.mem_cons, List.not_mem_nil, or_false] at hc
    unfold calculate_change_rates change_columns
    simp only [List.foldl]
    rcases hc with rfl | rfl | rfl | rfl
    · rw [add_change_cols_getCol_ne _ _ _ (by decide) (by decide) (by decide) (by decide),
        add_change_cols_getCol_ne _ _ _ (by decide) (by decide) (by decide) (by decide),
        add_change_cols_getCol_ne _ _ _ (by decide) (by decide) (by decide) (by decide),
        add_change_cols_day_rate _ _ hhas (by decide) (by decide), hcolof]
    · have hh : hasCol (add_change_cols f "融资余额") "融券余额" = true := by
        simp only [hasCol]
        rw [add_change_cols_getCol_ne _ _ _ (by decide) (by decide) (by decide) (by decide)]
        simpa [hasCol] using hhas
      have hcv : colOf (add_change_cols f "融资余额") "融券余额" = xs.map some := by
        simp only [colOf]
        rw [add_change_cols_getCol_ne _ _ _ (by decide) (by decide) (by decide) (by decide),
          hcol]
        rfl
      rw [add_change_cols_getCol_ne _ _ _ (by decide) (by decide) (by decide) (by decide),
        add_change_cols_getCol_ne _ _ _ (by decide) (by decide) (by decide) (by decide),
        add_change_cols_day_rate _ _ hh (by decide) (by decide), hcv]
    · have hh : hasCol (add_change_cols (add_change_cols f "融资余额") "融券余额") "两融余额" = true := by
        simp only [hasCol]
        rw [add_change_cols_getCol_ne _ _ _ (by decide) (by decide) (by decide) (by decide),
          add_change_cols_getCol_ne _ _ _ (by decide) (by decide) (by decide) (by decide)]
        simpa [hasCol] using hhas
      have hcv : colOf (add_change_cols (add_change_cols f "融资余额") "融券余额") "两融余额" =
          xs.map some := by
        simp only [colOf]
        rw [add_change_cols_getCol_ne _ _ _ (by decide) (by decide) (by decide) (by decide),
          add_change_cols_getCol_ne _ _ _ (by decide) (by decide) (by decide) (by decide),
          hcol]
        rfl
      rw [add_change_cols_getCol_ne _ _ _ (by decide) (by decide) (by decide) (by decide),
        add_change_cols_day_rate _ _ hh (by decide) (by decide), hcv]
    · have hh : hasCol (add_change_cols (add_change_cols (add_change_cols f "融资余额")
          "融券余额") "两融余额") "融资买入额" = true := by
        simp only [hasCol]
        rw [add_change_cols_getCol_ne _ _ _ (by decide) (by decide) (by decide) (by decide),
          add_change_cols_getCol_ne _ _ _ (by decide) (by decide) (by decide) (by decide),
          add_change_cols_getCol_ne _ _ _ (by decide) (by decide) (by decide) (by decide)]
        simpa [hasCol] using hhas
      have hcv : colOf (add_change_cols (add_change_cols (add_change_cols f "融资余额")
          "融券余额") "两融余额") "融资买入额" = xs.map some := by
        simp only [colOf]
        rw [add_change_cols_getCol_ne _ _ _ (by decide) (by decide) (by decide) (by decide),
          add_change_cols_getCol_ne _ _ _ (by decide) (by decide) (by decide) (by decide),
          add_change_cols_getCol_ne _ _ _ (by decide) (by decide) (by decide) (by decide),
          hcol]
        rfl
      rw [add_change_cols_day_rate _ _ hh (by decide) (by decide), hcv]
  refine ⟨pct_rate_col 1 (xs.map some), hmain, ?_, ?_, ?_⟩
  · rw [pct_rate_col_length]
    simp
  · intro hlen
    exact pct_rate_col_one_zero (xs.map some) (by simpa using hlen)
  · intro i x p hi hx hp hpne
    exact pct_rate_col_one_entry xs i x p hi hx hp hpne

/-- C3 witness: on the spec's example series [100, 110, 90] the day-1 change
rate is undefined and the day-2 change rate is (110−100)/100×100 = 10.00. -/
theorem c3_day_change_rate_witness :
    ∃ ys, getCol (calculate_change_rates c3frame) ("融资余额" ++ "_日变化率") = some ys ∧
      ys[0]? = some none ∧ ys[1]? = some (some 10) := by
  obtain ⟨ys, hy, _, h0, hentry⟩ :=
    c3_day_change_rate c3frame "融资余额" [100, 110, 90] (by simp [change_columns]) rfl
  refine ⟨ys, hy, h0 (by norm_num), ?_⟩
  have h := hentry 1 110 100 (by norm_num) rfl rfl (by norm_num)
  rw [h]
  norm_num [round2]

/-! ## C4: structural ratios sum to 100 -/

theorem abs_round2_sub (x : ℚ) : |round2 x - x| ≤ 1 / 200 := by
  unfold round2
  have h := abs_sub_round (x * 100)
  rw [abs_sub_comm] at h
  have heq : ((round (x * 100) : ℤ) : ℚ) / 100 - x = (((round (x * 100) : ℤ) : ℚ) - x * 100) / 100 := by
    ring
  rw [heq, abs_div, abs_of_pos (by norm_num : (0 : ℚ) < 100)]
  linarith

theorem ratio_col_entry (num den : List Cell) (i : ℕ) (x y : ℚ)
    (hx : num[i]? = some (some x)) (hy : den[i]? = some (some y)) (hyne : y ≠ 0) :
    (ratio_col num den)[i]? = some (some (round2 (x / y * 100))) := by
  unfold ratio_col zipCells
  rw [List.getElem?_map, List.getElem?_zipWith, hx, hy]
  simp [cellDiv, hyne, cellMulC, cellRound2]

theorem basic_combined_net_of_has (f : Frame)
    (hz : hasCol f "融资余额" = true) (hq : hasCol f "融券余额" = true)
    (hy : hasCol f "两融余额" = true) :
    basic_combined_net f =
      setCol f "净融资额" (zipCells cellSub (colOf f "融资余额") (colOf f "融券余额")) := by
  unfold basic_combined_net
  rw [hz, hq, hy]
  rfl

theorem basic_structural_ratios_of_has (f : Frame)
    (hz : hasCol f "融资余额" = true) (hq : hasCol f "融券余额" = true)
    (hy : hasCol f "两融余额" = true) (hsum : 0 < sumPresent (colOf f "两融余额")) :
    basic_structural_ratios f =
      setCol (setCol f "融资占两融比例" (ratio_col (colOf f "融资余额") (colOf f "两融余额")))
        "融券占两融比例" (ratio_col (colOf f "融券余额") (colOf f "两融余额")) := by
  unfold basic_structural_ratios
  rw [hz, hq, hy, decide_eq_true hsum]
  rfl

theorem getCol_basic_guarantee_ratio_ne (f : Frame) (c : String)
    (h : c ≠ "市场整体维持担保比例") :
    getCol (basic_guarantee_ratio f) c = getCol f c := by
  unfold basic_guarantee_ratio
  by_cases h1 : hasCol f "两融余额" = true
  · rw [h1]
    by_cases h2 : 1 < numRows f
    · rw [if_pos rfl, if_pos h2, getCol_setCol_ne _ _ _ _ h]
    · rw [if_pos rfl, if_neg h2, getCol_setCol_ne _ _ _ _ h]
  · rw [Bool.not_eq_true] at h1
    rw [h1]
    rfl

theorem getCol_basic_turnover_ne (f : Frame) (c : String)
    (h : c ≠ "融资周转率") :
    getCol (basic_turnover f) c = getCol f c := by
  unfold basic_turnover
  by_cases h1 : (hasCol f "融资买入额" && hasCol f "融资余额") = true
  · rw [h1, if_pos rfl, getCol_setCol_ne _ _ _ _ h]
  · rw [Bool.not_eq_true] at h1
    rw [h1]
    rfl

theorem basic_metrics_ratio_cols (f : Frame) (rzCol rqCol ryCol : List Cell)
    (hrz : getCol f "融资余额" = some rzCol)
    (hrq : getCol f "融券余额" = some rqCol)
    (hry : getCol f "两融余额" = some ryCol)
    (hsum : 0 < sumPresent ryCol) :
    getCol (calculate_basic_metrics f) "融资占两融比例" = some (ratio_col rzCol ryCol) ∧
    getCol (calculate_basic_metrics f) "融券占两融比例" = some (ratio_col rqCol ryCol) := by
  have hz := hasCol_of_getCol hrz
  have hq := hasCol_of_getCol hrq
  have hy := hasCol_of_getCol hry
  have h1 : basic_combined_net f =
      setCol f "净融资额" (zipCells cellSub (colOf f "融资余额") (colOf f "融券余额")) :=
    basic_combined_net_of_has f hz hq hy
  have hgz : getCol (basic_combined_net f) "融资余额" = some rzCol := by
    rw [h1, getCol_setCol_ne _ _ _ _ (by decide), hrz]
  have hgq : getCol (basic_combined_net f) "融券余额" = some rqCol := by
    rw [h1, getCol_setCol_ne _ _ _ _ (by decide), hrq]
  have hgy : getCol (basic_combined_net f) "两融余额" = some ryCol := by
    rw [h1, getCol_setCol_ne _ _ _ _ (by decide), hry]
  have h2 : basic_structural_ratios (basic_combined_net f) =
      setCol (setCol (basic_combined_net f) "融资占两融比例"
          (ratio_col (colOf (basic_combined_net f) "融资余额")
            (colOf (basic_combined_net f) "两融余额")))
        "融券占两融比例"
        (ratio_col (colOf (basic_combined_net f) "融券余额")
          (colOf (basic_combined_net f) "两融余额")) :=
    basic_structural_ratios_of_has _ (hasCol_of_getCol hgz) (hasCol_of_getCol hgq)
      (hasCol_of_getCol hgy) (by rw [colOf_eq_of_getCol hgy]; exact hsum)
  constructor
  · unfold calculate_basic_metrics
    rw [getCol_basic_turnover_ne _ _ (by decide),
      getCol_basic_guarantee_ratio_ne _ _ (by decide), h2,
      getCol_setCol_ne _ _ _ _ (by decide), getCol_setCol_self,
      colOf_eq_of_getCol hgz, colOf_eq_of_getCol hgy]
  · unfold calculate_basic_metrics
    rw [getCol_basic_turnover_ne _ _ (by decide),
      getCol_basic_guarantee_ratio_ne _ _ (by decide), h2,
      getCol_setCol_self, colOf_eq_of_getCol hgq, colOf_eq_of_getCol hgy]

/-- C4 (amended): for every row where financing balance, short balance and
combined balance are all present, the combined balance is positive, the
series-wide combined-balance sum is positive (so the ratio columns are
computed), and the combined balance equals financing + short balance — as it
does whenever the engine itself derived it — the financing-share and
short-share ratios sum to 100 within ±0.01.  (When the source table reports a
combined balance different from financing + short, the two rounded ratios sum
to (financing+short)/combined×100 (±0.01) instead, which is the
counterexample's situation.) -/
theorem c4_ratio_sum (f : Frame) (rzCol rqCol ryCol : List Cell) (i : ℕ) (rz rq ry : ℚ)
    (hrz : getCol f "融资余额" = some rzCol)
    (hrq : getCol f "融券余额" = some rqCol)
    (hry : getCol f "两融余额" = some ryCol)
    (hcz : rzCol[i]? = some (some rz))
    (hcq : rqCol[i]? = some (some rq))
    (hcy : ryCol[i]? = some (some ry))
    (hpos : 0 < ry)
    (hsum : 0 < sumPresent ryCol)
    (hbal : ry = rz + rq) :
    ∃ colA colB,
      getCol (calculate_basic_metrics f) "融资占两融比例" = some colA ∧
      getCol (calculate_basic_metrics f) "融券占两融比例" = some colB ∧
      ∃ a b, colA[i]? = some (some a) ∧ colB[i]? = some (some b) ∧
        |a + b - 100| ≤ 1 / 100 := by
  obtain ⟨hA, hB⟩ := basic_metrics_ratio_cols f rzCol rqCol ryCol hrz hrq hry hsum
  refine ⟨_, _, hA, hB, round2 (rz / ry * 100), round2 (rq / ry * 100),
    ratio_col_entry rzCol ryCol i rz ry hcz hcy hpos.ne',
    ratio_col_entry rqCol ryCol i rq ry hcq hcy hpos.ne', ?_⟩
  have hu : rz / ry * 100 + rq / ry * 100 = 100 := by
    field_simp [hpos.ne']
    linarith [hbal]
  have h1 := abs_round2_sub (rz / ry * 100)
  have h2 := abs_round2_sub (rq / ry * 100)
  have h3 : round2 (rz / ry * 100) + round2 (rq / ry * 100) - 100 =
      (round2 (rz / ry * 100) - rz / ry * 100) + (round2 (rq / ry * 100) - rq / ry * 100) := by
    linarith [hu]
  rw [h3]
  calc |(round2 (rz / ry * 100) - rz / ry * 100) + (round2 (rq / ry * 100) - rq / ry * 100)|
      ≤ |round2 (rz / ry * 100) - rz / ry * 100| + |round2 (rq / ry * 100) - rq / ry * 100| :=
        abs_add _ _
    _ ≤ 1 / 200 + 1 / 200 := add_le_add h1 h2
    _ = 1 / 100 := by norm_num

/-- C4 witness: on a consistent row (financing 100, short 10, combined 110)
the two ratio cells are defined and sum to 100 within ±0.01. -/
theorem c4_ratio_sum_witness :
    ∃ colA colB,
      getCol (calculate_basic_metrics c4okFrame) "融资占两融比例" = some colA ∧
      getCol (calculate_basic_metrics c4okFrame) "融券占两融比例" = some colB ∧
      ∃ a b, colA[0]? = some (some a) ∧ colB[0]? = some (some b) ∧
        |a + b - 100| ≤ 1 / 100 := by
  refine c4_ratio_sum c4okFrame [some 100] [some 10] [some 110] 0 100 10 110
    rfl rfl rfl rfl rfl rfl (by norm_num) ?_ (by norm_num)
  norm_num [sumPresent, presentVals, List.filterMap]

/-- C4 counterexample: a row whose reported combined balance (50) differs
from financing + short (100 + 0) satisfies every premise of the claim as
stated — all three fields present, combined balance positive, series sum
positive — yet the two ratios are 200 and 0, whose sum is 100 away from 100:
the claim fails on the code without the combined = financing + short
premise. -/
theorem c4_counterexample :
    getCol c4frame "两融余额" = some [some 50] ∧
    (0 : ℚ) < 50 ∧ 0 < sumPresent [some (50 : ℚ)] ∧
    ∃ colA colB,
      getCol (calculate_basic_metrics c4frame) "融资占两融比例" = some colA ∧
      getCol (calculate_basic_metrics c4frame) "融券占两融比例" = some colB ∧
      ∃ a b, colA[0]? = some (some a) ∧ colB[0]? = some (some b) ∧
        ¬ |a + b - 100| ≤ 1 / 100 := by
  have hsum : 0 < sumPresent [some (50 : ℚ)] := by
    norm_num [sumPresent, presentVals, List.filterMap]
  obtain ⟨hA, hB⟩ := basic_metrics_ratio_cols c4frame [some 100] [some 0] [some 50]
    rfl rfl rfl hsum
  have hr1 : round2 ((100 : ℚ) / 50 * 100) = 200 := by
    norm_num [round2]
  have hr2 : round2 ((0 : ℚ) / 50 * 100) = 0 := by
    norm_num [round2]
  refine ⟨rfl, by norm_num, hsum, _, _, hA, hB, 200, 0, ?_, ?_, by norm_num⟩
  · have h := ratio_col_entry [some 100] [some 50] 0 100 50 rfl rfl (by norm_num)
    rw [hr1] at h
    exact h
  · have h := ratio_col_entry [some 0] [some 50] 0 0 50 rfl rfl (by norm_num)
    rw [hr2] at h
    exact h

/-! ## C9: append-only enrichment -/

theorem ne_of_not_mem_derived {c : String} (hnd : c ∉ derived_names)
    (n : String) (hn : n ∈ derived_names) : c ≠ n :=
  fun h => hnd (h ▸ hn)

theorem map_range_cellAtIdx (xs : List Cell) :
    (List.range xs.length).map (fun i => cellAtIdx xs i) = xs := by
  apply List.ext_getElem
  · simp
  · intro i h1 h2
    simp [cellAtIdx, List.getElem?_eq_getElem h2]

theorem sort_by_date_sorted_eq (f : Frame) (dates : List Cell)
    (hd : getCol f "交易日期" = some dates)
    (hlen : ∀ p ∈ f, p.2.length = numRows f)
    (hdlen : dates.length = numRows f)
    (hsorted : dates.Pairwise (fun a b => cellLe a b = true)) :
    sort_by_date f = f := by
  unfold sort_by_date
  rw [hd]
  show f.map (fun p => (p.1,
      ((List.range (numRows f)).insertionSort
        (fun i j => cellLe (cellAtIdx dates i) (cellAtIdx dates j) = true)).map
          (fun i => cellAtIdx p.2 i))) = f
  have hperm : (List.range (numRows f)).insertionSort
      (fun i j => cellLe (cellAtIdx dates i) (cellAtIdx dates j) = true) =
      List.range (numRows f) := by
    apply List.Sorted.insertionSort_eq
    rw [List.Sorted, List.pairwise_iff_getElem]
    intro i j hi hj hij
    simp only [List.getElem_range]
    have h1 : i < dates.length := by rw [hdlen]; simpa using hi
    have h2 : j < dates.length := by rw [hdlen]; simpa using hj
    have h3 := List.pairwise_iff_getElem.mp hsorted i j h1 h2 hij
    simpa [cellAtIdx, List.getElem?_eq_getElem h1, List.getElem?_eq_getElem h2] using h3
  rw [hperm]
  have hmap : ∀ p ∈ f, (p.1, (List.range (numRows f)).map (fun i => cellAtIdx p.2 i)) = p := by
    intro p hp
    have hl : p.2.length = numRows f := hlen p hp
    rw [← hl, map_range_cellAtIdx]
  calc f.map (fun p => (p.1, (List.range (numRows f)).map (fun i => cellAtIdx p.2 i)))
      = f.map id := List.map_congr_left hmap
    _ = f := List.map_id f

theorem basic_combined_net_of_absent (f : Frame)
    (hz : hasCol f "融资余额" = true) (hq : hasCol f "融券余额" = true)
    (hy : hasCol f "两融余额" = false) :
    basic_combined_net f =
      setCol (setCol f "两融余额" (zipCells cellAdd (colOf f "融资余额") (colOf f "融券余额")))
        "净融资额"
        (zipCells cellSub
          (colOf (setCol f "两融余额"
            (zipCells cellAdd (colOf f "融资余额") (colOf f "融券余额"))) "融资余额")
          (colOf (setCol f "两融余额"
            (zipCells cellAdd (colOf f "融资余额") (colOf f "融券余额"))) "融券余额")) := by
  unfold basic_combined_net
  rw [hz, hq, hy]
  rfl

theorem getCol_basic_combined_net_ne (f : Frame) (c : String)
    (h1 : c ≠ "净融资额") (h2 : c = "两融余额" → hasCol f "两融余额" = true) :
    getCol (basic_combined_net f) c = getCol f c := by
  by_cases hb : (hasCol f "融资余额" && hasCol f "融券余额") = true
  · obtain ⟨hz, hq⟩ := Bool.and_eq_true_iff.mp hb
    by_cases hy : hasCol f "两融余额" = true
    · rw [basic_combined_net_of_has f hz hq hy, getCol_setCol_ne _ _ _ _ h1]
    · have hy2 : hasCol f "两融余额" = false := by rwa [Bool.not_eq_true] at hy
      have hcy : c ≠ "两融余额" := fun h => hy (h2 h)
      rw [basic_combined_net_of_absent f hz hq hy2, getCol_setCol_ne _ _ _ _ h1,
        getCol_setCol_ne _ _ _ _ hcy]
  · have hb2 : (hasCol f "融资余额" && hasCol f "融券余额") = false := by
      rwa [Bool.not_eq_true] at hb
    unfold basic_combined_net
    rw [hb2]
    rfl

theorem getCol_basic_structural_ratios_ne (f : Frame) (c : String)
    (h1 : c ≠ "融资占两融比例") (h2 : c ≠ "融券占两融比例") :
    getCol (basic_structural_ratios f) c = getCol f c := by
  unfold basic_structural_ratios
  by_cases hb : (hasCol f "两融余额" && decide (0 < sumPresent (colOf f "两融余额"))) = true
  · rw [hb, if_pos rfl]
    by_cases hz : hasCol f "融资余额" = true
    · by_cases hq : hasCol f "融券余额" = true
      · rw [hz, hq]
        show getCol (setCol
            (setCol f "融资占两融比例" (ratio_col (colOf f "融资余额") (colOf f "两融余额")))
            "融券占两融比例" (ratio_col (colOf f "融券余额") (colOf f "两融余额"))) c = getCol f c
        rw [getCol_setCol_ne _ _ _ _ h2, getCol_setCol_ne _ _ _ _ h1]
      · have hq2 : hasCol f "融券余额" = false := by rwa [Bool.not_eq_true] at hq
        rw [hz, hq2]
        show getCol (setCol f "融资占两融比例"
            (ratio_col (colOf f "融资余额") (colOf f "两融余额"))) c = getCol f c
        rw [getCol_setCol_ne _ _ _ _ h1]
    · have hz2 : hasCol f "融资余额" = false := by rwa [Bool.not_eq_true] at hz
      by_cases hq : hasCol f "融券余额" = true
      · rw [hz2, hq]
        show getCol (setCol f "融券占两融比例"
            (ratio_col (colOf f "融券余额") (colOf f "两融余额"))) c = getCol f c
        rw [getCol_setCol_ne _ _ _ _ h2]
      · have hq2 : hasCol f "融券余额" = false := by rwa [Bool.not_eq_true] at hq
        rw [hz2, hq2]
        rfl
  · have hb2 : (hasCol f "两融余额" && decide (0 < sumPresent (colOf f "两融余额"))) = false := by
      rwa [Bool.not_eq_true] at hb
    rw [hb2]
    rfl

theorem getCol_add_change_cols_ne2 (f : Frame) (b c : String)
    (h : c ≠ b ++ "_日变化" ∧ c ≠ b ++ "_日变化率" ∧ c ≠ b ++ "_周变化率" ∧ c ≠ b ++ "_月变化率") :
    getCol (add_change_cols f b) c = getCol f c :=
  add_change_cols_getCol_ne f b c h.1 h.2.1 h.2.2.1 h.2.2.2

theorem getCol_calculate_change_rates_ne (f : Frame) (c : String)
    (h : ∀ b ∈ change_columns, c ≠ b ++ "_日变化" ∧ c ≠ b ++ "_日变化率" ∧
      c ≠ b ++ "_周变化率" ∧ c ≠ b ++ "_月变化率") :
    getCol (calculate_change_rates f) c = getCol f c := by
  unfold calculate_change_rates change_columns
  simp only [List.foldl]
  rw [getCol_add_change_cols_ne2 _ _ _ (h _ (by simp [change_columns])),
    getCol_add_change_cols_ne2 _ _ _ (h _ (by simp [change_columns])),
    getCol_add_change_cols_ne2 _ _ _ (h _ (by simp [change_columns])),
    getCol_add_change_cols_ne2 _ _ _ (h _ (by simp [change_columns]))]

theorem getCol_add_ma_cols_ne (f : Frame) (b c : String)
    (h : ∀ p ∈ ma_periods, c ≠ b ++ "_MA" ++ toString p ∧
      c ≠ b ++ "_MA" ++ toString p ++ "_偏离度") :
    getCol (add_ma_cols f b) c = getCol f c := by
  unfold add_ma_cols ma_periods
  by_cases hb : hasCol f b = true
  · rw [if_pos hb]
    simp only [List.foldl]
    rw [getCol_setCol_ne _ _ _ _ (h 60 (by simp [ma_periods])).2,
      getCol_setCol_ne _ _ _ _ (h 60 (by simp [ma_periods])).1,
      getCol_setCol_ne _ _ _ _ (h 20 (by simp [ma_periods])).2,
      getCol_setCol_ne _ _ _ _ (h 20 (by simp [ma_periods])).1,
      getCol_setCol_ne _ _ _ _ (h 10 (by simp [ma_periods])).2,
      getCol_setCol_ne _ _ _ _ (h 10 (by simp [ma_periods])).1,
      getCol_setCol_ne _ _ _ _ (h 5 (by simp [ma_periods])).2,
      getCol_setCol_ne _ _ _ _ (h 5 (by simp [ma_periods])).1]
  · rw [if_neg hb]

theorem getCol_calculate_moving_averages_ne (f : Frame) (c : String)
    (h : ∀ b ∈ ma_columns, ∀ p ∈ ma_periods, c ≠ b ++ "_MA" ++ toString p ∧
      c ≠ b ++ "_MA" ++ toString p ++ "_偏离度") :
    getCol (calculate_moving_averages f) c = getCol f c := by
  unfold calculate_moving_averages ma_columns
  simp only [List.foldl]
  rw [getCol_add_ma_cols_ne _ _ _ (h _ (by simp [ma_columns])),
    getCol_add_ma_cols_ne _ _ _ (h _ (by simp [ma_columns])),
    getCol_add_ma_cols_ne _ _ _ (h _ (by simp [ma_columns]))]

theorem getCol_add_rsi_col_ne (f : Frame) (b c : String) (h : c ≠ b ++ "_RSI") :
    getCol (add_rsi_col f b) c = getCol f c := by
  unfold add_rsi_col
  by_cases hb : hasCol f b = true
  · rw [if_pos hb, getCol_setCol_ne _ _ _ _ h]
  · rw [if_neg hb]

theorem getCol_add_bollinger_cols_ne (sqrtFn : ℚ → ℚ) (f : Frame) (b c : String)
    (h1 : c ≠ b ++ "_布林上轨") (h2 : c ≠ b ++ "_布林中轨")
    (h3 : c ≠ b ++ "_布林下轨") (h4 : c ≠ b ++ "_布林位置") :
    getCol (add_bollinger_cols sqrtFn f b) c = getCol f c := by
  unfold add_bollinger_cols
  by_cases hb : hasCol f b = true
  · rw [if_pos hb, getCol_setCol_ne _ _ _ _ h4, getCol_setCol_ne _ _ _ _ h3,
      getCol_setCol_ne _ _ _ _ h2, getCol_setCol_ne _ _ _ _ h1]
  · rw [if_neg hb]

theorem getCol_calculate_statistical_metrics_ne (sqrtFn : ℚ → ℚ) (f : Frame) (c : String)
    (h1 : ∀ b ∈ rsi_columns, c ≠ b ++ "_RSI")
    (h2 : ∀ b ∈ bollinger_columns, c ≠ b ++ "_布林上轨" ∧ c ≠ b ++ "_布林中轨" ∧
      c ≠ b ++ "_布林下轨" ∧ c ≠ b ++ "_布林位置") :
    getCol (calculate_statistical_metrics sqrtFn f) c = getCol f c := by
  unfold calculate_statistical_metrics rsi_columns bollinger_columns
  simp only [List.foldl]
  rw [getCol_add_bollinger_cols_ne sqrtFn _ _ _
      (h2 _ (by simp [bollinger_columns])).1 (h2 _ (by simp [bollinger_columns])).2.1
      (h2 _ (by simp [bollinger_columns])).2.2.1 (h2 _ (by simp [bollinger_columns])).2.2.2,
    getCol_add_bollinger_cols_ne sqrtFn _ _ _
      (h2 _ (by simp [bollinger_columns])).1 (h2 _ (by simp [bollinger_columns])).2.1
      (h2 _ (by simp [bollinger_columns])).2.2.1 (h2 _ (by simp [bollinger_columns])).2.2.2,
    getCol_add_rsi_col_ne _ _ _ (h1 _ (by simp [rsi_columns])),
    getCol_add_rsi_col_ne _ _ _ (h1 _ (by simp [rsi_columns]))]

/-- C9 (amended): for every canonical input frame (dates present, sorted
ascending, columns of uniform length) and every input column whose name is
not one of the derived column names the stage assigns, the derived-metrics
stage `process_margin_summary` leaves that column's value at every date
unchanged — it only appends new columns.  (A column that reuses a derived
name, e.g. an input column already called 净融资额, is recomputed and
overwritten, which is the counterexample's situation.) -/
theorem c9_append_only (sqrtFn : ℚ → ℚ) (f : Frame) (c : String) (col dates : List Cell)
    (hnd : c ∉ derived_names)
    (hcol : getCol f c = some col)
    (hd : getCol f "交易日期" = some dates)
    (hlen : ∀ p ∈ f, p.2.length = numRows f)
    (hrows : 0 < numRows f)
    (hsorted : dates.Pairwise (fun a b => cellLe a b = true)) :
    getCol (process_margin_summary sqrtFn f) c = some col := by
  have hdlen : dates.length = numRows f := by
    unfold getCol at hd
    cases hf : f.find? (fun p => p.1 == "交易日期") with
    | none => rw [hf] at hd; simp at hd
    | some p =>
      rw [hf] at hd
      simp only [Option.map_some', Option.some.injEq] at hd
      rw [← hd]
      exact hlen p (List.mem_of_find?_eq_some hf)
  have hsort : sort_by_date f = f := sort_by_date_sorted_eq f dates hd hlen hdlen hsorted
  have hempty : frameEmpty f = false := by
    unfold frameEmpty
    simp
    omega
  unfold process_margin_summary
  rw [hempty]
  show getCol (calculate_statistical_metrics sqrtFn (calculate_moving_averages
    (calculate_change_rates (calculate_basic_metrics (sort_by_date f))))) c = some col
  rw [hsort]
  rw [getCol_calculate_statistical_metrics_ne sqrtFn _ _
      (by
        intro b hb
        simp only [rsi_columns, List.mem_cons, List.not_mem_nil, or_false] at hb
        rcases hb with rfl | rfl <;>
          exact ne_of_not_mem_derived hnd _ (by decide))
      (by
        intro b hb
        simp only [bollinger_columns, List.mem_cons, List.not_mem_nil, or_false] at hb
        rcases hb with rfl | rfl <;>
          exact ⟨ne_of_not_mem_derived hnd _ (by decide),
            ne_of_not_mem_derived hnd _ (by decide),
            ne_of_not_mem_derived hnd _ (by decide),
            ne_of_not_mem_derived hnd _ (by decide)⟩),
    getCol_calculate_moving_averages_ne _ _
      (by
        intro b hb p hp
        simp only [ma_columns, List.mem_cons, List.not_mem_nil, or_false] at hb
        simp only [ma_periods, List.mem_cons, List.not_mem_nil, or_false] at hp
        rcases hb with rfl | rfl | rfl <;> rcases hp with rfl | rfl | rfl | rfl <;>
          exact ⟨ne_of_not_mem_derived hnd _ (by decide),
            ne_of_not_mem_derived hnd _ (by decide)⟩),
    getCol_calculate_change_rates_ne _ _
      (by
        intro b hb
        simp only [change_columns, List.mem_cons, List.not_mem_nil, or_false] at hb
        rcases hb with rfl | rfl | rfl | rfl <;>
          exact ⟨ne_of_not_mem_derived hnd _ (by decide),
            ne_of_not_mem_derived hnd _ (by decide),
            ne_of_not_mem_derived hnd _ (by decide),
            ne_of_not_mem_derived hnd _ (by decide)⟩)]
  unfold calculate_basic_metrics
  rw [getCol_basic_turnover_ne _ _ (ne_of_not_mem_derived hnd _ (by decide)),
    getCol_basic_guarantee_ratio_ne _ _ (ne_of_not_mem_derived hnd _ (by decide)),
    getCol_basic_structural_ratios_ne _ _ (ne_of_not_mem_derived hnd _ (by decide))
      (ne_of_not_mem_derived hnd _ (by decide)),
    getCol_basic_combined_net_ne _ _ (ne_of_not_mem_derived hnd _ (by decide))
      (fun hc => hc ▸ hasCol_of_getCol hcol)]
  exact hcol

/-- C9 witness: a canonical two-row frame's financing-balance column passes
through the whole derived-metrics stage unchanged. -/
theorem c9_append_only_witness :
    getCol (process_margin_summary (fun q => q) c9okFrame) "融资余额" =
      some [some 100, some 110] :=
  c9_append_only (fun q => q) c9okFrame "融资余额" [some 100, some 110]
    [some 20240101, some 20240102] (by decide) rfl rfl (by decide) (by decide) (by decide)

/-- C9 counterexample: an input frame that already carries a column named
净融资额 with value 999 leaves the stage with that column overwritten to
融资余额 − 融券余额 = 90 — the stage does not preserve every existing
column, so the claim as stated fails. -/
theorem c9_counterexample :
    getCol c9frame "净融资额" = some [some 999] ∧
    getCol (process_margin_summary (fun q => q) c9frame) "净融资额" = some [some 90] := by
  refine ⟨rfl, ?_⟩
  have hsort : sort_by_date c9frame = c9frame :=
    sort_by_date_sorted_eq c9frame [some 20240101] rfl (by decide) (by decide) (by simp)
  unfold process_margin_summary
  rw [show frameEmpty c9frame = false from rfl]
  show getCol (calculate_statistical_metrics (fun q => q) (calculate_moving_averages
    (calculate_change_rates (calculate_basic_metrics (sort_by_date c9frame)))))
      "净融资额" = some [some 90]
  rw [hsort]
  rw [getCol_calculate_statistical_metrics_ne _ _ _
      (by decide)
      (by decide),
    getCol_calculate_moving_averages_ne _ _ (by decide),
    getCol_calculate_change_rates_ne _ _ (by decide)]
  unfold calculate_basic_metrics
  rw [getCol_basic_turnover_ne _ _ (by decide),
    getCol_basic_guarantee_ratio_ne _ _ (by decide),
    getCol_basic_structural_ratios_ne _ _ (by decide) (by decide)]
  rw [basic_combined_net_of_absent c9frame rfl rfl rfl, getCol_setCol_self]
  have hfz : colOf (setCol c9frame "两融余额"
      (zipCells cellAdd (colOf c9frame "融资余额") (colOf c9frame "融券余额")))
      "融资余额" = [some 100] := by
    unfold colOf
    rw [getCol_setCol_ne _ _ _ _ (by decide)]
    rfl
  have hfq : colOf (setCol c9frame "两融余额"
      (zipCells cellAdd (colOf c9frame "融资余额") (colOf c9frame "融券余额")))
      "融券余额" = [some 10] := by
    unfold colOf
    rw [getCol_setCol_ne _ _ _ _ (by decide)]
    rfl
  rw [hfz, hfq]
  show some [cellSub (some 100) (some 10)] = some [some 90]
  norm_num [cellSub]
